import Mathlib

/-!
# Verification of the resumable X-bookmarks import subsystem

Shallow embedding of the import subsystem of the raindrop-io-mcp repository:

* `src/lib/x-import-state.ts` — the durable import-run ledger (create, save,
  load, list, find-active, duplicate-index scan, per-record error logging);
* `src/lib/x-client.ts` — the rate limiter and the retrying API request wrapper;
* `src/tools/x/import-bookmarks.ts` — the import orchestrator (new-vs-resume
  resolution, the page loop, terminal-state classification).

External effects are modelled explicitly: the on-disk state directory is an
association list of file name to file content (a parsed state or a corrupt
blob), the source API is an oracle given as a list of scripted page responses
consumed in order (an exhausted script behaves as a fetch that throws, which is
one of the genuine behaviours of the source call), the destination write for a
single record is an oracle `XTweet → Except String Unit` covering both the
transform and the `createRaindrop` call inside the per-record `try`, and the
clock is a fixed `now` parameter.  Every persisted ledger state and every
intermediate store content is returned in a trace so that properties of "every
persisted state" can be stated directly.
-/

namespace RaindropImport

/-- `XImportStatus` from `x-types.ts`: `"running" | "paused" | "completed" | "failed"`. -/
inductive XImportStatus where
  | running
  | paused
  | completed
  | failed
deriving DecidableEq

/-- `XImportError` from `x-types.ts`: one entry of the append-only error log. -/
structure XImportError where
  tweetId : String
  error : String
  timestamp : Nat
deriving DecidableEq

/-- The fields of `XTweet` that the import loop itself consumes.  The remaining
fields (entities, metrics, attachments) only shape the destination payload,
which is folded into the per-record write oracle. -/
structure XTweet where
  id : String
  text : String
  author_id : String
deriving DecidableEq

/-- `XImportState` from `x-types.ts`: the ledger entity of one import run. -/
structure XImportState where
  importId : String
  status : XImportStatus
  startedAt : Nat
  lastUpdateAt : Nat
  collectionId : Int
  collectionName : String
  totalFetched : Nat
  totalSaved : Nat
  totalSkipped : Nat
  totalFailed : Nat
  nextPaginationToken : Option String
  processedTweetIds : List String
  errors : List XImportError
deriving DecidableEq

/-- Content of one file in the import-state directory: either a blob that
parses to an `XImportState`, or a corrupt/unreadable blob (a failed
`JSON.parse` or a read error). -/
inductive FileData where
  | valid (state : XImportState)
  | corrupt
deriving DecidableEq

/-- The import-state directory: file name to file content, in directory order. -/
abbrev Store := List (String × FileData)

/-- `endsWith` on strings, computed on the underlying character lists
(the model of `file.endsWith(".json")`). -/
def strEndsWith (s suffixStr : String) : Bool :=
  List.isSuffixOf suffixStr.data s.data

/-- `getStateFilePath`: the file of a run is `{importId}.json` in the state directory. -/
def stateFileName (importId : String) : String :=
  importId ++ ".json"

/-- Association-list lookup of a file in the directory (`fs.existsSync` + read). -/
def lookupFile : Store → String → Option FileData
  | [], _ => none
  | (k, v) :: rest, name => if k = name then some v else lookupFile rest name

/-- Whole-file overwrite: replace the file if present, else create it. -/
def setFile : Store → String → FileData → Store
  | [], name, d => [(name, d)]
  | (k, v) :: rest, name, d =>
    if k = name then (name, d) :: rest else (k, v) :: setFile rest name d

/-- `createImportState(collectionId, collectionName)`: fresh run with id
`x-import-{Date.now()}`, status `running`, zero counters, empty set and log. -/
def createImportState (now : Nat) (collectionId : Int) (collectionName : String) :
    XImportState :=
  { importId := "x-import-" ++ toString now
    status := .running
    startedAt := now
    lastUpdateAt := now
    collectionId := collectionId
    collectionName := collectionName
    totalFetched := 0
    totalSaved := 0
    totalSkipped := 0
    totalFailed := 0
    nextPaginationToken := none
    processedTweetIds := []
    errors := [] }

/-- `saveImportState(state)`: refresh `lastUpdateAt`, then overwrite the run's
file.  Returns the refreshed state (the source mutates the object in place) and
the new directory contents. -/
def saveImportState (now : Nat) (store : Store) (state : XImportState) :
    XImportState × Store :=
  let s := { state with lastUpdateAt := now }
  (s, setFile store (stateFileName state.importId) (.valid s))

/-- `loadImportState(importId)`: `null` when the file does not exist, and
`null` when reading or `JSON.parse` fails (the `try/catch`). -/
def loadImportState (store : Store) (importId : String) : Option XImportState :=
  match lookupFile store (stateFileName importId) with
  | none => none
  | some .corrupt => none
  | some (.valid s) => some s

/-- `getActiveImport()`: scan the directory in order, skip files that do not
end in `.json` and files that fail to parse, and return the first state whose
status is `running`. -/
def getActiveImport : Store → Option XImportState
  | [] => none
  | (name, d) :: rest =>
    if strEndsWith name ".json" then
      match d with
      | .valid s => if s.status = .running then some s else getActiveImport rest
      | .corrupt => getActiveImport rest
    else getActiveImport rest

/-- The parse phase of `listImportStates()`: collect, in directory order, the
states of the `.json` files that parse, skipping corrupt ones. -/
def collectStates : Store → List XImportState
  | [] => []
  | (name, d) :: rest =>
    if strEndsWith name ".json" then
      match d with
      | .valid s => s :: collectStates rest
      | .corrupt => collectStates rest
    else collectStates rest

/-- Insert into a list kept sorted by `startedAt` descending
(the `sort((a, b) => b.startedAt - a.startedAt)` step). -/
def insertByStartedAt (s : XImportState) : List XImportState → List XImportState
  | [] => [s]
  | t :: rest =>
    if s.startedAt ≤ t.startedAt then t :: insertByStartedAt s rest
    else s :: t :: rest

/-- Sort by `startedAt`, most recent first. -/
def sortByStartedAtDesc (l : List XImportState) : List XImportState :=
  l.foldr insertByStartedAt []

/-- `listImportStates()`: all parseable `.json` states, most recent first. -/
def listImportStates (store : Store) : List XImportState :=
  sortByStartedAtDesc (collectStates store)

/-- `isTweetProcessed(state, tweetId)`: membership in `processedTweetIds`. -/
def isTweetProcessed (state : XImportState) (tweetId : String) : Bool :=
  state.processedTweetIds.contains tweetId

/-- `markTweetProcessed(state, tweetId)`: push the id if not already present. -/
def markTweetProcessed (state : XImportState) (tweetId : String) : XImportState :=
  if state.processedTweetIds.contains tweetId then state
  else { state with processedTweetIds := state.processedTweetIds ++ [tweetId] }

/-- `addImportError(state, tweetId, error)`: append `{tweetId, error, timestamp}`
to the error log and increment `totalFailed`. -/
def addImportError (now : Nat) (state : XImportState) (tweetId : String)
    (error : String) : XImportState :=
  { state with
    errors := state.errors ++ [{ tweetId := tweetId, error := error, timestamp := now }]
    totalFailed := state.totalFailed + 1 }

/-- The summary object built by `getImportSummary(state)`. -/
structure ImportSummary where
  importId : String
  status : XImportStatus
  collectionName : String
  progress : String
  duration : String
  statsFetched : Nat
  statsSaved : Nat
  statsSkipped : Nat
  statsFailed : Nat
  errorCount : Nat
deriving DecidableEq

/-- `getImportSummary(state)`.  `Math.round(durationMs / 1000)` on a
non-negative value is `(durationMs + 500) / 1000` in integer division, and
`Math.round(total / fetched * 100)` is `(200 * total + fetched) / (2 * fetched)`. -/
def getImportSummary (state : XImportState) : ImportSummary :=
  let durationMs := state.lastUpdateAt - state.startedAt
  let durationSec := (durationMs + 500) / 1000
  let minutes := durationSec / 60
  let seconds := durationSec % 60
  let total := state.totalSaved + state.totalSkipped + state.totalFailed
  let progressPct :=
    if 0 < state.totalFetched then
      (200 * total + state.totalFetched) / (2 * state.totalFetched)
    else 0
  { importId := state.importId
    status := state.status
    collectionName := state.collectionName
    progress := toString progressPct ++ "% (" ++ toString total ++ "/" ++
      toString state.totalFetched ++ ")"
    duration :=
      if 0 < minutes then toString minutes ++ "m " ++ toString seconds ++ "s"
      else toString seconds ++ "s"
    statsFetched := state.totalFetched
    statsSaved := state.totalSaved
    statsSkipped := state.totalSkipped
    statsFailed := state.totalFailed
    errorCount := state.errors.length }

/-!
## Duplicate index: `loadExistingTweetIds` (x-import-state.ts)

The destination list call `getRaindrops(collectionId, {page, perpage})` is an
oracle `Nat → Except String (List String)` giving, per page number, the links of
the items of that page (or a thrown error, which the `catch` turns into a
logged break).  The URL-pattern extraction of a tweet id from one link
(`/(?:x\.com|twitter\.com)\/\w+\/status\/(\d+)/`) is abstracted as the
`extract` function. -/

/-- Outcome of one duplicate-index scan. -/
structure ScanOut where
  tweetIds : List String
  pagesFetched : Nat
  warned : Bool
  errored : Bool
deriving DecidableEq

/-- The `while (true)` loop of `loadExistingTweetIds`, from page `page`:
fetch a page; on an exception log and break; collect the extracted ids; break
on a page shorter than `perPage = 50`; otherwise advance, and break with a
warning once `page > 100`. -/
def loadExistingTweetIdsGo (getPage : Nat → Except String (List String))
    (extract : String → Option String) (page : Nat) (acc : List String)
    (fetches : Nat) : ScanOut :=
  match getPage page with
  | .error _ => { tweetIds := acc, pagesFetched := fetches + 1, warned := false, errored := true }
  | .ok items =>
    let acc := acc ++ items.filterMap extract
    if items.length < 50 then
      { tweetIds := acc, pagesFetched := fetches + 1, warned := false, errored := false }
    else if 100 < page + 1 then
      { tweetIds := acc, pagesFetched := fetches + 1, warned := true, errored := false }
    else
      loadExistingTweetIdsGo getPage extract (page + 1) acc (fetches + 1)
termination_by 101 - page
decreasing_by omega

/-- `loadExistingTweetIds(collectionId)`: scan from page `0`. -/
def loadExistingTweetIds (getPage : Nat → Except String (List String))
    (extract : String → Option String) : ScanOut :=
  loadExistingTweetIdsGo getPage extract 0 [] 0

/-!
## Rate limiter and `xApiRequest` (x-client.ts)
-/

/-- The `RateLimiter` instance state: `remaining` (starts at 180), `reset`
(unix seconds), `lastRequestTime` (ms). `remaining` is an `Int` because it is
only floored at zero by the explicit guard in `recordRequest`. -/
structure RateLimiter where
  remaining : Int
  reset : Nat
  lastRequestTime : Nat
deriving DecidableEq

/-- The limiter as constructed: `remaining = 180`, `reset = 0`, `lastRequestTime = 0`. -/
def RateLimiter.init : RateLimiter :=
  { remaining := 180, reset := 0, lastRequestTime := 0 }

/-- `checkAndWait()`: returns the total milliseconds slept together with the
updated limiter.  Enforces the 350 ms spacing floor, refreshes the budget when
past `reset`, and in the danger zone (`remaining ≤ 5`) sleeps until `reset`
plus a 5 s buffer and refreshes the budget.  The warning zone only logs. -/
def RateLimiter.checkAndWait (rl : RateLimiter) (now : Nat) : Int × RateLimiter :=
  let elapsed : Int := (now : Int) - (rl.lastRequestTime : Int)
  let spacingWait : Int :=
    if elapsed < 350 ∧ 0 < rl.lastRequestTime then 350 - elapsed else 0
  let nowSeconds := now / 1000
  if rl.reset < nowSeconds then
    (spacingWait, { rl with remaining := 180 })
  else if rl.remaining ≤ 5 then
    let dangerWait : Int := ((rl.reset : Int) - (nowSeconds : Int)) * 1000 + 5000
    (spacingWait + dangerWait, { rl with remaining := 180 })
  else
    (spacingWait, rl)

/-- `updateFromHeaders(headers)`: adopt the authoritative
`x-rate-limit-remaining` / `x-rate-limit-reset` values when present. -/
def RateLimiter.updateFromHeaders (rl : RateLimiter)
    (remainingHeader resetHeader : Option Nat) : RateLimiter :=
  let rl := match remainingHeader with
    | some n => { rl with remaining := (n : Int) }
    | none => rl
  match resetHeader with
  | some n => { rl with reset := n }
  | none => rl

/-- `recordRequest()`: update `lastRequestTime` to the current time and
decrement `remaining`, guarded so it never drops below zero. -/
def RateLimiter.recordRequest (rl : RateLimiter) (now : Nat) : RateLimiter :=
  let rl := { rl with lastRequestTime := now }
  if 0 < rl.remaining then { rl with remaining := rl.remaining - 1 } else rl

/-- One HTTP response as seen by `xApiRequest`: status line, the two rate-limit
headers, and the fields of the parsed error body (`detail`, `errors[].message`),
with `bodyParses = false` when `response.json()` itself throws. -/
structure XHttpResponse where
  status : Nat
  statusText : String
  rateLimitRemaining : Option Nat
  rateLimitReset : Option Nat
  bodyDetail : Option String
  bodyErrorsMessages : List String
  bodyParses : Bool
deriving DecidableEq

/-- `Response.ok`: status in `[200, 300)`. -/
def responseOk (resp : XHttpResponse) : Bool :=
  decide (200 ≤ resp.status ∧ resp.status < 300)

/-- The error message thrown for a non-ok response: the body's `detail` when
present, else the first `errors[].message`, else
`X API error: {status} {statusText}`; the default is also used when the body
fails to parse. -/
def errorMessageOf (resp : XHttpResponse) : String :=
  let base := "X API error: " ++ toString resp.status ++ " " ++ resp.statusText
  if resp.bodyParses then
    match resp.bodyDetail with
    | some d => d
    | none =>
      match resp.bodyErrorsMessages with
      | m :: _ => m
      | [] => base
  else base

instance {ε α : Type} [DecidableEq ε] [DecidableEq α] : DecidableEq (Except ε α) :=
  fun a b =>
    match a, b with
    | .ok x, .ok y =>
      if h : x = y then isTrue (by rw [h]) else isFalse (fun hc => h (Except.ok.inj hc))
    | .error x, .error y =>
      if h : x = y then isTrue (by rw [h]) else isFalse (fun hc => h (Except.error.inj hc))
    | .ok _, .error _ => isFalse (fun hc => Except.noConfusion hc)
    | .error _, .ok _ => isFalse (fun hc => Except.noConfusion hc)

/-- The sleep performed before a 429 retry:
`(resetTime - nowSeconds) * 1000 + 5000`, where `resetTime` is
`parseInt(headers.get("x-rate-limit-reset") || "0")`. -/
def retryWaitMs (resp : XHttpResponse) (now : Nat) : Int :=
  (((resp.rateLimitReset.getD 0 : Nat) : Int) - ((now / 1000 : Nat) : Int)) * 1000 + 5000

/-- Outcome of one `xApiRequest` invocation: the returned value or thrown
message, how many fetch attempts were dispatched, the 429 retry sleeps (in ms)
in order, and the final limiter state.  A successful result carries the index
of the attempt whose response was consumed. -/
structure ApiOut where
  result : Except String Nat
  attemptsMade : Nat
  sleeps : List Int
  limiter : RateLimiter
deriving DecidableEq

/-- The `for (attempt = 0; attempt < maxRetries; attempt++)` loop of
`xApiRequest`, with `fuel = maxRetries - attemptIdx` iterations left.  Each
iteration waits via `checkAndWait`, dispatches (the response for attempt `i`
is `respOf i`), records the request, adopts the response headers, and then: on
a 429 with retries left sleeps until the header reset time plus the 5 s buffer
and continues; on any other non-ok response (or a final 429) throws the body's
error message; on success returns. -/
def xApiRequestGo (respOf : Nat → XHttpResponse) (now : Nat) (maxRetries : Nat) :
    Nat → Nat → RateLimiter → List Int → ApiOut
  | 0, attemptIdx, rl, sleeps =>
    { result := .error "Max retries exceeded for X API request"
      attemptsMade := attemptIdx, sleeps := sleeps, limiter := rl }
  | fuel + 1, attemptIdx, rl, sleeps =>
    let rl := (rl.checkAndWait now).2
    let resp := respOf attemptIdx
    let rl := rl.recordRequest now
    let rl := rl.updateFromHeaders resp.rateLimitRemaining resp.rateLimitReset
    if resp.status = 429 ∧ attemptIdx < maxRetries - 1 then
      xApiRequestGo respOf now maxRetries fuel (attemptIdx + 1) rl
        (sleeps ++ [retryWaitMs resp now])
    else if responseOk resp then
      { result := .ok attemptIdx, attemptsMade := attemptIdx + 1, sleeps := sleeps, limiter := rl }
    else
      { result := .error (errorMessageOf resp), attemptsMade := attemptIdx + 1
        sleeps := sleeps, limiter := rl }

/-- `xApiRequest(path, options, maxRetries = 3)`. -/
def xApiRequest (respOf : Nat → XHttpResponse) (now : Nat) (maxRetries : Nat)
    (rl : RateLimiter) : ApiOut :=
  xApiRequestGo respOf now maxRetries maxRetries 0 rl []

/-!
## Import orchestrator: `importXBookmarksTool` (import-bookmarks.ts)

One invocation is a pure function of the structured tool arguments, the current
state directory, and an environment of collaborator oracles:

* `attempt : XTweet → Except String Unit` — the body of the per-record `try`
  (the `tweetToRaindrop` transform plus the `createRaindrop` write);
* `responses : List (Except String XPage)` — the `fetchBookmarks` results,
  consumed in page order; `.error` is a thrown fetch, and an exhausted script
  also behaves as a thrown fetch;
* `currentUser` — the outcome of `getCurrentXUser()`;
* `collectionId/collectionNameResolved/existingIds` — the outcomes of
  `getOrCreateCollection` and `loadExistingTweetIds` for a fresh run.

The result carries the structured response, the final directory, the trace of
every state passed to `saveImportState` (in order), the matching trace of
directory contents after each save, and the number of bookmark-page fetch
attempts. -/

/-- One page returned by `fetchBookmarks`: `response.data` and
`response.meta.next_token` (user/media lookups only feed the write oracle). -/
structure XPage where
  data : List XTweet
  nextToken : Option String
deriving DecidableEq

/-- Result of `processTweetBatch`: the mutated state and the per-page
`{saved, skipped, failed}` counts. -/
structure BatchOut where
  state : XImportState
  saved : Nat
  skipped : Nat
  failed : Nat
deriving DecidableEq

/-- `processTweetBatch(tweets, usersMap, mediaMap, state)`: for each tweet in
order, skip it if already processed; otherwise run the transform and the write
(the oracle `attempt`); on success mark the id processed and count it saved; on
a thrown error append to the run's error log via `addImportError` and count it
failed, continuing with the next tweet. -/
def processTweetBatch (attempt : XTweet → Except String Unit) (now : Nat) :
    List XTweet → XImportState → BatchOut
  | [], state => { state := state, saved := 0, skipped := 0, failed := 0 }
  | tweet :: rest, state =>
    if isTweetProcessed state tweet.id then
      let out := processTweetBatch attempt now rest state
      { out with skipped := out.skipped + 1 }
    else
      match attempt tweet with
      | .ok _ =>
        let out := processTweetBatch attempt now rest (markTweetProcessed state tweet.id)
        { out with saved := out.saved + 1 }
      | .error msg =>
        let out := processTweetBatch attempt now rest (addImportError now state tweet.id msg)
        { out with failed := out.failed + 1 }

/-- The `structuredContent` variants returned by the tool. -/
inductive ToolResult where
  | notAuthenticated
  | importNotFound (importId : String)
  | alreadyCompleted (summary : ImportSummary)
  | importInProgress (importId : String) (summary : ImportSummary)
  | completedRun (importId : String) (summary : ImportSummary)
  | failedRun (importId : String) (error : String) (summary : ImportSummary)
deriving DecidableEq

/-- Full observable outcome of one tool invocation. -/
structure InvokeOut where
  result : ToolResult
  finalStore : Store
  persists : List XImportState
  storeTrace : List Store
  pagesFetched : Nat
deriving DecidableEq

/-- Normal termination: set `completed`, clear the cursor, persist, return the
summary. -/
def completeOut (now : Nat) (state : XImportState) (store : Store) : InvokeOut :=
  let s := { state with status := XImportStatus.completed, nextPaginationToken := none }
  let sv := saveImportState now store s
  { result := .completedRun sv.1.importId (getImportSummary sv.1)
    finalStore := sv.2
    persists := [sv.1]
    storeTrace := [sv.2]
    pagesFetched := 0 }

/-- The `catch` of the main loop: set `failed` (cursor untouched), persist, and
report the error with the run id for resumption. -/
def failOut (now : Nat) (state : XImportState) (err : String) (store : Store) : InvokeOut :=
  let s := { state with status := XImportStatus.failed }
  let sv := saveImportState now store s
  { result := .failedRun sv.1.importId err (getImportSummary sv.1)
    finalStore := sv.2
    persists := [sv.1]
    storeTrace := [sv.2]
    pagesFetched := 0 }

/-- Prefix an iteration's page persist (and its fetch) onto the outcome of the
rest of the loop. -/
def withPage (out : InvokeOut) (s : XImportState) (st : Store) : InvokeOut :=
  { out with
    persists := s :: out.persists
    storeTrace := st :: out.storeTrace
    pagesFetched := out.pagesFetched + 1 }

/-- `if (maxResults && totalProcessed >= maxResults)`: JavaScript truthiness
makes an absent or zero `maxResults` mean "no cap". -/
def hitMaxResults (maxResults : Option Nat) (totalProcessed : Nat) : Bool :=
  match maxResults with
  | some m => if m = 0 then false else decide (m ≤ totalProcessed)
  | none => false

/-- The state mutations of one non-empty page, before the persist: add the
page length to `totalFetched`, classify the records through
`processTweetBatch`, add the returned `saved`/`skipped` counts
(`totalFailed` was already updated inside by `addImportError`), and store the
page's `next_token` as the new cursor. -/
def pageStep (attempt : XTweet → Except String Unit) (now : Nat) (page : XPage)
    (state : XImportState) : XImportState :=
  let s1 := { state with totalFetched := state.totalFetched + page.data.length }
  let pb := processTweetBatch attempt now page.data s1
  { pb.state with
    totalSaved := pb.state.totalSaved + pb.saved
    totalSkipped := pb.state.totalSkipped + pb.skipped
    nextPaginationToken := page.nextToken }

/-- The `while (true)` fetch loop.  Each iteration: fetch a page (a thrown
fetch escapes to the `catch`); an empty page breaks to completion; otherwise
run `pageStep` and persist, then break to completion on the `maxResults` cap
or an absent `next_token`, else continue with the next page. -/
def importLoop (attempt : XTweet → Except String Unit) (maxResults : Option Nat)
    (now : Nat) :
    List (Except String XPage) → XImportState → Nat → Store → InvokeOut
  | [], state, _, store =>
    let t := failOut now state "fetch failed" store
    { t with pagesFetched := t.pagesFetched + 1 }
  | .error e :: _, state, _, store =>
    let t := failOut now state e store
    { t with pagesFetched := t.pagesFetched + 1 }
  | .ok page :: rest, state, totalProcessed, store =>
    if page.data.length = 0 then
      let t := completeOut now state store
      { t with pagesFetched := t.pagesFetched + 1 }
    else
      let tp := totalProcessed + page.data.length
      let sv := saveImportState now store (pageStep attempt now page state)
      if hitMaxResults maxResults tp then
        withPage (completeOut now sv.1 sv.2) sv.1 sv.2
      else
        match page.nextToken with
        | none => withPage (completeOut now sv.1 sv.2) sv.1 sv.2
        | some _ => withPage (importLoop attempt maxResults now rest sv.1 tp sv.2) sv.1 sv.2

/-- The tool's structured arguments. -/
structure ImportArgs where
  collectionName : String
  maxResults : Option Nat
  resumeImportId : Option String
deriving DecidableEq

/-- The collaborator oracles of one invocation. -/
structure ImportEnv where
  xAuthenticated : Bool
  collectionId : Int
  collectionNameResolved : String
  existingIds : List String
  currentUser : Except String Unit
  responses : List (Except String XPage)
  attempt : XTweet → Except String Unit
  now : Nat

/-- Persist the initial or resumed state, then run the fetch loop inside the
`try`; a thrown `getCurrentXUser()` escapes directly to the `catch`. -/
def startRun (env : ImportEnv) (maxResults : Option Nat) (store : Store)
    (state : XImportState) : InvokeOut :=
  let sv := saveImportState env.now store state
  let tail :=
    match env.currentUser with
    | .error e => failOut env.now sv.1 e sv.2
    | .ok _ => importLoop env.attempt maxResults env.now env.responses sv.1 0 sv.2
  { tail with
    persists := sv.1 :: tail.persists
    storeTrace := sv.2 :: tail.storeTrace }

/-- `importXBookmarksTool({collectionName, maxResults, resumeImportId})`:
authentication guard; then either resume-by-ID (not-found error for an unknown
id, short-circuit for a `completed` run, else re-enter `running`), or refuse to
start while another run is `running`, or create a fresh run seeded with the
duplicate-index scan; then persist and run the loop. -/
def importXBookmarksTool (env : ImportEnv) (store : Store) (args : ImportArgs) :
    InvokeOut :=
  if env.xAuthenticated = false then
    { result := .notAuthenticated, finalStore := store
      persists := [], storeTrace := [], pagesFetched := 0 }
  else
    match args.resumeImportId with
    | some rid =>
      match loadImportState store rid with
      | none =>
        { result := .importNotFound rid, finalStore := store
          persists := [], storeTrace := [], pagesFetched := 0 }
      | some loaded =>
        if loaded.status = XImportStatus.completed then
          { result := .alreadyCompleted (getImportSummary loaded), finalStore := store
            persists := [], storeTrace := [], pagesFetched := 0 }
        else
          startRun env args.maxResults store { loaded with status := XImportStatus.running }
    | none =>
      match getActiveImport store with
      | some active =>
        { result := .importInProgress active.importId (getImportSummary active)
          finalStore := store, persists := [], storeTrace := [], pagesFetched := 0 }
      | none =>
        let fresh := createImportState env.now env.collectionId env.collectionNameResolved
        startRun env args.maxResults store
          { fresh with processedTweetIds := env.existingIds }

/-!
## Derived notions used by the statements
-/

/-- The counting invariant of §3: every fetched record is classified into at
most one of saved/skipped/failed. -/
def countersConsistent (s : XImportState) : Prop :=
  s.totalSaved + s.totalSkipped + s.totalFailed ≤ s.totalFetched

instance (s : XImportState) : Decidable (countersConsistent s) := by
  unfold countersConsistent; infer_instance

/-- Pointwise order on the four monotone counters. -/
def countersLE (a b : XImportState) : Prop :=
  a.totalFetched ≤ b.totalFetched ∧ a.totalSaved ≤ b.totalSaved ∧
  a.totalSkipped ≤ b.totalSkipped ∧ a.totalFailed ≤ b.totalFailed

instance (a b : XImportState) : Decidable (countersLE a b) := by
  unfold countersLE; infer_instance

/-- `totalFailed` agrees with the length of the error log. -/
def failedMatchesErrors (s : XImportState) : Prop :=
  s.totalFailed = s.errors.length

instance (s : XImportState) : Decidable (failedMatchesErrors s) := by
  unfold failedMatchesErrors; infer_instance

/-- A ledger entry (a parseable `.json` file) whose state is `running`. -/
def isRunningEntry (e : String × FileData) : Bool :=
  match e.2 with
  | .valid s => strEndsWith e.1 ".json" && decide (s.status = XImportStatus.running)
  | .corrupt => false

/-- Number of ledger entries with status `running` in the directory. -/
def countRunning (store : Store) : Nat :=
  (store.filter isRunningEntry).length

/-- Number of `running` ledger entries held in files other than `name`. -/
def countRunningExcl (store : Store) (name : String) : Nat :=
  ((store.filter (fun e => !(e.1 == name))).filter isRunningEntry).length

/-- Every file name occurs at most once in the directory (true of a real file
system directory). -/
def storeKeysNodup (store : Store) : Prop :=
  (store.map Prod.fst).Nodup

instance (store : Store) : Decidable (storeKeysNodup store) := by
  unfold storeKeysNodup; infer_instance

/-- A parseable file holds the run whose id names the file. -/
def entryNameConsistent (e : String × FileData) : Bool :=
  match e.2 with
  | .valid s => e.1 == stateFileName s.importId
  | .corrupt => true

/-- Every parseable file holds the run whose id names the file — true of every
file the subsystem itself writes, since `saveImportState` writes state `s` to
`{s.importId}.json`. -/
def storeNamesConsistent (store : Store) : Prop :=
  ∀ e ∈ store, entryNameConsistent e = true

instance (store : Store) : Decidable (storeNamesConsistent store) := by
  unfold storeNamesConsistent
  infer_instance

/-- The directory restricted to the files that parse. -/
def validFiles (store : Store) : Store :=
  store.filter (fun e =>
    match e.2 with
    | .valid _ => true
    | .corrupt => false)

/-- A throwaway default for positional access into persist traces. -/
def dummyState : XImportState :=
  createImportState 0 0 ""

/-- The two cursor relations between consecutive persisted states used by the
amended cursor claim: a persist that turns the run `failed` leaves the cursor
of the previous persist untouched, and a non-initial `running` persist with an
empty cursor is immediately followed by the `completed` persist. -/
def cursorQ (a b : XImportState) : Prop :=
  b.status = XImportStatus.failed → b.nextPaginationToken = a.nextPaginationToken

instance (a b : XImportState) : Decidable (cursorQ a b) := by
  unfold cursorQ; infer_instance

def cursorP (a b : XImportState) : Prop :=
  a.status = XImportStatus.running ∧ a.nextPaginationToken = none →
    b.status = XImportStatus.completed

instance (a b : XImportState) : Decidable (cursorP a b) := by
  unfold cursorP; infer_instance

/-- The combined shape of the persist trace produced by the fetch loop from a
`running` state `s`: every persisted state preserves the counting invariants
and the run id, every `completed` persist has an empty cursor, counters grow
along the trace, a `failed` persist keeps the previous persist's cursor, a
non-initial empty-cursor `running` persist is followed by the `completed`
persist, and the trace ends in a terminal (`completed` or `failed`) persist. -/
def PersistsOK (s : XImportState) (out : InvokeOut) : Prop :=
  (∀ p ∈ out.persists,
    (countersConsistent s → countersConsistent p) ∧
    (failedMatchesErrors s → failedMatchesErrors p) ∧
    (p.status = XImportStatus.completed → p.nextPaginationToken = none) ∧
    p.importId = s.importId) ∧
  List.Chain' countersLE (s :: out.persists) ∧
  List.Chain' cursorQ (s :: out.persists) ∧
  List.Chain' cursorP out.persists ∧
  ∃ last, out.persists.getLast? = some last ∧
    (last.status = XImportStatus.completed ∨ last.status = XImportStatus.failed)

/-!
## Concrete fixtures used by the claim witnesses and counterexamples
-/

def c1Env : ImportEnv :=
  { xAuthenticated := true
    collectionId := 1
    collectionNameResolved := "X-Bookmarks"
    existingIds := []
    currentUser := .ok ()
    responses := [.ok {
      data := [{ id := "11", text := "hello", author_id := "u1" }]
      nextToken := none }]
    attempt := fun _ => .ok ()
    now := 100 }

def c1Args : ImportArgs :=
  { collectionName := "X-Bookmarks", maxResults := none, resumeImportId := none }

def c10Env : ImportEnv :=
  { xAuthenticated := true
    collectionId := 3
    collectionNameResolved := "X-Bookmarks"
    existingIds := []
    currentUser := .ok ()
    responses := [.ok {
      data := [{ id := "21", text := "a", author_id := "u2" },
        { id := "22", text := "b", author_id := "u2" }]
      nextToken := none }]
    attempt := fun t => if t.id = "22" then .error "boom" else .ok ()
    now := 200 }

def c10Args : ImportArgs :=
  { collectionName := "X-Bookmarks", maxResults := none, resumeImportId := none }

def c5State : XImportState :=
  { importId := "B"
    status := .failed
    startedAt := 10
    lastUpdateAt := 20
    collectionId := 2
    collectionName := "X-Bookmarks"
    totalFetched := 5
    totalSaved := 3
    totalSkipped := 1
    totalFailed := 1
    nextPaginationToken := some "T"
    processedTweetIds := ["1", "2", "3"]
    errors := [{ tweetId := "9", error := "boom", timestamp := 15 }] }

def c5Store : Store := [("B.json", .valid c5State)]

def c5Env : ImportEnv :=
  { xAuthenticated := true
    collectionId := 2
    collectionNameResolved := "X-Bookmarks"
    existingIds := []
    currentUser := .ok ()
    responses := [.ok {
      data := [{ id := "21", text := "t", author_id := "u" }]
      nextToken := none }]
    attempt := fun _ => .ok ()
    now := 50 }

def c5Args : ImportArgs :=
  { collectionName := "X-Bookmarks", maxResults := none, resumeImportId := some "B" }

def c6State : XImportState :=
  { importId := "done"
    status := .completed
    startedAt := 30
    lastUpdateAt := 40
    collectionId := 4
    collectionName := "X-Bookmarks"
    totalFetched := 2
    totalSaved := 2
    totalSkipped := 0
    totalFailed := 0
    nextPaginationToken := none
    processedTweetIds := ["5", "6"]
    errors := [] }

def c6Store : Store := [("done.json", .valid c6State)]

def c6Env : ImportEnv :=
  { xAuthenticated := true
    collectionId := 4
    collectionNameResolved := "X-Bookmarks"
    existingIds := []
    currentUser := .ok ()
    responses := []
    attempt := fun _ => .ok ()
    now := 60 }

def c6Args : ImportArgs :=
  { collectionName := "X-Bookmarks", maxResults := none, resumeImportId := some "done" }

def c8State : XImportState :=
  { importId := "good"
    status := .failed
    startedAt := 70
    lastUpdateAt := 80
    collectionId := 5
    collectionName := "X-Bookmarks"
    totalFetched := 1
    totalSaved := 0
    totalSkipped := 0
    totalFailed := 1
    nextPaginationToken := some "K"
    processedTweetIds := []
    errors := [{ tweetId := "7", error := "x", timestamp := 75 }] }

def c8Store : Store := [("gone.json", .corrupt), ("good.json", .valid c8State)]

def c2StateA : XImportState :=
  { importId := "A"
    status := .running
    startedAt := 1
    lastUpdateAt := 2
    collectionId := 1
    collectionName := "X-Bookmarks"
    totalFetched := 0
    totalSaved := 0
    totalSkipped := 0
    totalFailed := 0
    nextPaginationToken := none
    processedTweetIds := []
    errors := [] }

def c2StateB : XImportState :=
  { importId := "B"
    status := .failed
    startedAt := 3
    lastUpdateAt := 4
    collectionId := 1
    collectionName := "X-Bookmarks"
    totalFetched := 2
    totalSaved := 1
    totalSkipped := 0
    totalFailed := 1
    nextPaginationToken := some "R"
    processedTweetIds := ["5"]
    errors := [{ tweetId := "8", error := "y", timestamp := 3 }] }

def c2Store : Store := [("A.json", .valid c2StateA), ("B.json", .valid c2StateB)]

def c2WStore : Store := [("B.json", .valid c2StateB)]

def c2Env : ImportEnv :=
  { xAuthenticated := true
    collectionId := 1
    collectionNameResolved := "X-Bookmarks"
    existingIds := []
    currentUser := .ok ()
    responses := []
    attempt := fun _ => .ok ()
    now := 9 }

def c2Args : ImportArgs :=
  { collectionName := "X-Bookmarks", maxResults := none, resumeImportId := some "B" }

def c3Env : ImportEnv :=
  { xAuthenticated := true
    collectionId := 6
    collectionNameResolved := "X-Bookmarks"
    existingIds := []
    currentUser := .ok ()
    responses := [
      .ok {
        data := [{ id := "1", text := "a", author_id := "u" },
          { id := "2", text := "b", author_id := "u" },
          { id := "3", text := "c", author_id := "u" },
          { id := "4", text := "d", author_id := "u" },
          { id := "5", text := "e", author_id := "u" }]
        nextToken := some "p2" },
      .ok {
        data := [{ id := "6", text := "f", author_id := "u" },
          { id := "7", text := "g", author_id := "u" }]
        nextToken := none }]
    attempt := fun t => if t.id = "3" then .error "write failed" else .ok ()
    now := 77 }

def c3Args : ImportArgs :=
  { collectionName := "X-Bookmarks", maxResults := none, resumeImportId := none }

def c3WAttempt : XTweet → Except String Unit :=
  fun t => if t.id = "3" then .error "write failed" else .ok ()

def c3WTweet : XTweet := { id := "3", text := "x", author_id := "u" }

def c4Resp : Nat → XHttpResponse := fun _ =>
  { status := 429
    statusText := "Too Many Requests"
    rateLimitRemaining := some 0
    rateLimitReset := some 1000
    bodyDetail := some "Rate limit exceeded"
    bodyErrorsMessages := []
    bodyParses := true }

def c7Pages : Nat → Except String (List String) := fun n =>
  if n = 0 then .ok (List.replicate 50 "https://x.com/u/status/1")
  else .ok ["https://x.com/u/status/2"]

def c7Extract : String → Option String := fun _ => none

/-!
## Helper lemmas
-/

theorem markTweetProcessed_eq (s : XImportState) (tid : String) :
    ∃ ids, markTweetProcessed s tid = { s with processedTweetIds := ids } := by
  unfold markTweetProcessed
  split
  · exact ⟨s.processedTweetIds, rfl⟩
  · exact ⟨s.processedTweetIds ++ [tid], rfl⟩

theorem processTweetBatch_preserves (attempt : XTweet → Except String Unit) (now : Nat)
    (ts : List XTweet) (s : XImportState) :
    (processTweetBatch attempt now ts s).state.importId = s.importId ∧
    (processTweetBatch attempt now ts s).state.status = s.status ∧
    (processTweetBatch attempt now ts s).state.startedAt = s.startedAt ∧
    (processTweetBatch attempt now ts s).state.lastUpdateAt = s.lastUpdateAt ∧
    (processTweetBatch attempt now ts s).state.totalFetched = s.totalFetched ∧
    (processTweetBatch attempt now ts s).state.totalSaved = s.totalSaved ∧
    (processTweetBatch attempt now ts s).state.totalSkipped = s.totalSkipped ∧
    (processTweetBatch attempt now ts s).state.nextPaginationToken = s.nextPaginationToken := by
  induction ts generalizing s with
  | nil => simp [processTweetBatch]
  | cons t rest ih =>
    simp only [processTweetBatch]
    split
    · simpa using ih s
    · split
      · obtain ⟨ids, hm⟩ := markTweetProcessed_eq s t.id
        rw [hm]
        simpa using ih { s with processedTweetIds := ids }
      · simpa [addImportError] using ih (addImportError now s t.id _)

theorem processTweetBatch_counts (attempt : XTweet → Except String Unit) (now : Nat)
    (ts : List XTweet) (s : XImportState) :
    (processTweetBatch attempt now ts s).saved + (processTweetBatch attempt now ts s).skipped +
      (processTweetBatch attempt now ts s).failed = ts.length ∧
    (processTweetBatch attempt now ts s).state.totalFailed
      = s.totalFailed + (processTweetBatch attempt now ts s).failed ∧
    (processTweetBatch attempt now ts s).state.errors.length
      = s.errors.length + (processTweetBatch attempt now ts s).failed := by
  induction ts generalizing s with
  | nil => simp [processTweetBatch]
  | cons t rest ih =>
    simp only [processTweetBatch]
    split
    · have h := ih s
      dsimp only
      simp only [List.length_cons]
      omega
    · split
      · obtain ⟨ids, hm⟩ := markTweetProcessed_eq s t.id
        rw [hm]
        have h := ih { s with processedTweetIds := ids }
        dsimp only at h ⊢
        simp only [List.length_cons]
        omega
      · rename_i msg hmsg
        have h := ih (addImportError now s t.id msg)
        simp only [addImportError] at h ⊢
        simp only [List.length_cons, List.length_append, List.length_nil] at h ⊢
        omega

theorem pageStep_fields (attempt : XTweet → Except String Unit) (now : Nat)
    (page : XPage) (s : XImportState) :
    (pageStep attempt now page s).importId = s.importId ∧
    (pageStep attempt now page s).status = s.status ∧
    (pageStep attempt now page s).startedAt = s.startedAt ∧
    (pageStep attempt now page s).lastUpdateAt = s.lastUpdateAt ∧
    (pageStep attempt now page s).nextPaginationToken = page.nextToken ∧
    (pageStep attempt now page s).totalFetched = s.totalFetched + page.data.length := by
  have hp := processTweetBatch_preserves attempt now page.data
    { s with totalFetched := s.totalFetched + page.data.length }
  unfold pageStep
  dsimp only
  dsimp only at hp
  exact ⟨hp.1, hp.2.1, hp.2.2.1, hp.2.2.2.1, rfl, hp.2.2.2.2.1⟩

theorem pageStep_counts (attempt : XTweet → Except String Unit) (now : Nat)
    (page : XPage) (s : XImportState) :
    ∃ saved skipped failed,
      saved + skipped + failed = page.data.length ∧
      (pageStep attempt now page s).totalSaved = s.totalSaved + saved ∧
      (pageStep attempt now page s).totalSkipped = s.totalSkipped + skipped ∧
      (pageStep attempt now page s).totalFailed = s.totalFailed + failed ∧
      (pageStep attempt now page s).errors.length = s.errors.length + failed := by
  have hp := processTweetBatch_preserves attempt now page.data
    { s with totalFetched := s.totalFetched + page.data.length }
  have hc := processTweetBatch_counts attempt now page.data
    { s with totalFetched := s.totalFetched + page.data.length }
  refine ⟨(processTweetBatch attempt now page.data
      { s with totalFetched := s.totalFetched + page.data.length }).saved,
    (processTweetBatch attempt now page.data
      { s with totalFetched := s.totalFetched + page.data.length }).skipped,
    (processTweetBatch attempt now page.data
      { s with totalFetched := s.totalFetched + page.data.length }).failed,
    hc.1, ?_, ?_, ?_, ?_⟩ <;>
  · unfold pageStep
    dsimp only
    dsimp only at hp hc
    omega

theorem saveImportState_fst (now : Nat) (store : Store) (s : XImportState) :
    (saveImportState now store s).1 = { s with lastUpdateAt := now } := rfl

theorem completeOut_persists (now : Nat) (s : XImportState) (store : Store) :
    (completeOut now s store).persists =
      [{ s with
          status := XImportStatus.completed
          nextPaginationToken := none
          lastUpdateAt := now }] := rfl

theorem failOut_persists (now : Nat) (s : XImportState) (err : String) (store : Store) :
    (failOut now s err store).persists =
      [{ s with status := XImportStatus.failed, lastUpdateAt := now }] := rfl

theorem getLast?_cons_some {α : Type} (a : α) {l : List α} {x : α}
    (h : l.getLast? = some x) : (a :: l).getLast? = some x := by
  cases l with
  | nil => simp at h
  | cons b t => rw [List.getLast?_cons_cons]; exact h

/-- The two in-loop break-to-completion branches (`maxResults` cap reached, or
no further cursor): the page persist `s4` followed by the terminal `completed`
persist. -/
theorem importLoop_breakCase (now : Nat) (s s4 : XImportState) (st : Store)
    (hcons : countersConsistent s → countersConsistent s4)
    (herr : failedMatchesErrors s → failedMatchesErrors s4)
    (hle : countersLE s s4)
    (hstat : s4.status = XImportStatus.running)
    (hid : s4.importId = s.importId) :
    PersistsOK s (withPage (completeOut now s4 st) s4 st) := by
  refine ⟨?_, ?_, ?_, ?_, ?_⟩
  · intro p hp
    simp only [withPage, completeOut_persists, List.mem_cons, List.not_mem_nil,
      or_false] at hp
    rcases hp with hp | hp
    · subst hp
      refine ⟨hcons, herr, ?_, hid⟩
      intro hc
      rw [hstat] at hc
      simp at hc
    · subst hp
      exact ⟨fun h => hcons h, fun h => herr h, fun _ => rfl, hid⟩
  · simp only [withPage, completeOut_persists]
    refine List.chain'_cons.2 ⟨hle, List.chain'_cons.2 ⟨?_, List.chain'_singleton _⟩⟩
    exact ⟨le_refl _, le_refl _, le_refl _, le_refl _⟩
  · simp only [withPage, completeOut_persists]
    refine List.chain'_cons.2 ⟨?_, List.chain'_cons.2 ⟨?_, List.chain'_singleton _⟩⟩
    · intro hc
      rw [hstat] at hc
      simp at hc
    · intro hc
      simp at hc
  · simp only [withPage, completeOut_persists]
    refine List.chain'_cons.2 ⟨fun _ => rfl, List.chain'_singleton _⟩
  · simp only [withPage, completeOut_persists]
    exact ⟨_, rfl, Or.inl rfl⟩

theorem importLoop_persistsOK (attempt : XTweet → Except String Unit)
    (mr : Option Nat) (now : Nat) :
    ∀ (responses : List (Except String XPage)) (s : XImportState) (tp : Nat)
      (store : Store), s.status = XImportStatus.running →
      PersistsOK s (importLoop attempt mr now responses s tp store) := by
  intro responses
  induction responses with
  | nil =>
    intro s tp store hs
    constructor
    · intro p hp
      simp only [importLoop, failOut_persists] at hp
      simp only [List.mem_singleton] at hp
      subst hp
      refine ⟨fun h => h, fun h => h, ?_, rfl⟩
      intro hc
      simp [hs] at hc
    · refine ⟨?_, ?_, ?_, ?_⟩
      · simp only [importLoop, failOut_persists]
        refine List.chain'_cons.2 ⟨?_, List.chain'_singleton _⟩
        exact ⟨le_refl _, le_refl _, le_refl _, le_refl _⟩
      · simp only [importLoop, failOut_persists]
        refine List.chain'_cons.2 ⟨?_, List.chain'_singleton _⟩
        intro _; rfl
      · simp only [importLoop, failOut_persists]
        exact List.chain'_singleton _
      · simp only [importLoop, failOut_persists]
        exact ⟨_, rfl, Or.inr rfl⟩
  | cons r rest ih =>
    intro s tp store hs
    cases r with
    | error e =>
      constructor
      · intro p hp
        simp only [importLoop, failOut_persists] at hp
        simp only [List.mem_singleton] at hp
        subst hp
        refine ⟨fun h => h, fun h => h, ?_, rfl⟩
        intro hc
        simp [hs] at hc
      · refine ⟨?_, ?_, ?_, ?_⟩
        · simp only [importLoop, failOut_persists]
          refine List.chain'_cons.2 ⟨?_, List.chain'_singleton _⟩
          exact ⟨le_refl _, le_refl _, le_refl _, le_refl _⟩
        · simp only [importLoop, failOut_persists]
          refine List.chain'_cons.2 ⟨?_, List.chain'_singleton _⟩
          intro _; rfl
        · simp only [importLoop, failOut_persists]
          exact List.chain'_singleton _
        · simp only [importLoop, failOut_persists]
          exact ⟨_, rfl, Or.inr rfl⟩
    | ok page =>
      obtain ⟨pdata, ptok⟩ := page
      by_cases hlen : pdata.length = 0
      · -- empty page: break straight to completion
        simp only [importLoop]
        rw [if_pos hlen]
        refine ⟨?_, ?_, ?_, ?_, ?_⟩
        · intro p hp
          simp only [completeOut_persists] at hp
          simp only [List.mem_singleton] at hp
          subst hp
          exact ⟨fun h => h, fun h => h, fun _ => rfl, rfl⟩
        · simp only [completeOut_persists]
          refine List.chain'_cons.2 ⟨?_, List.chain'_singleton _⟩
          exact ⟨le_refl _, le_refl _, le_refl _, le_refl _⟩
        · simp only [completeOut_persists]
          refine List.chain'_cons.2 ⟨?_, List.chain'_singleton _⟩
          intro hc
          simp at hc
        · simp only [completeOut_persists]
          exact List.chain'_singleton _
        · simp only [completeOut_persists]
          exact ⟨_, rfl, Or.inl rfl⟩
      · -- non-empty page
        obtain ⟨hid, hstat, hstart, hlu, hcur, hfet⟩ :=
          pageStep_fields attempt now ⟨pdata, ptok⟩ s
        obtain ⟨saved, skipped, failed, hsum, hsv, hsk, hfl, herr⟩ :=
          pageStep_counts attempt now ⟨pdata, ptok⟩ s
        have hs4cons : countersConsistent s →
            countersConsistent { pageStep attempt now ⟨pdata, ptok⟩ s with lastUpdateAt := now } := by
          intro h
          unfold countersConsistent at h ⊢
          dsimp only
          omega
        have hs4err : failedMatchesErrors s →
            failedMatchesErrors { pageStep attempt now ⟨pdata, ptok⟩ s with lastUpdateAt := now } := by
          intro h
          unfold failedMatchesErrors at h ⊢
          dsimp only
          omega
        have hs4le : countersLE s
            { pageStep attempt now ⟨pdata, ptok⟩ s with lastUpdateAt := now } := by
          unfold countersLE
          dsimp only
          omega
        have hs4stat :
            ({ pageStep attempt now ⟨pdata, ptok⟩ s with lastUpdateAt := now }).status
              = XImportStatus.running := by
          dsimp only
          rw [hstat, hs]
        have hs4id :
            ({ pageStep attempt now ⟨pdata, ptok⟩ s with lastUpdateAt := now }).importId
              = s.importId := by
          dsimp only
          exact hid
        have hs4cur :
            ({ pageStep attempt now ⟨pdata, ptok⟩ s with lastUpdateAt := now }).nextPaginationToken
              = ptok := by
          dsimp only
          exact hcur
        simp only [importLoop]
        rw [if_neg hlen]
        by_cases hmax : hitMaxResults mr (tp + pdata.length) = true
        · rw [if_pos hmax]
          exact importLoop_breakCase now s
            ((saveImportState now store (pageStep attempt now ⟨pdata, ptok⟩ s)).1)
            ((saveImportState now store (pageStep attempt now ⟨pdata, ptok⟩ s)).2)
            hs4cons hs4err hs4le hs4stat hs4id
        · rw [if_neg hmax]
          cases ptok with
          | none =>
            exact importLoop_breakCase now s
              ((saveImportState now store (pageStep attempt now ⟨pdata, none⟩ s)).1)
              ((saveImportState now store (pageStep attempt now ⟨pdata, none⟩ s)).2)
              hs4cons hs4err hs4le hs4stat hs4id
          | some tok =>
            have hrec := ih
              ((saveImportState now store (pageStep attempt now ⟨pdata, some tok⟩ s)).1)
              (tp + pdata.length)
              ((saveImportState now store (pageStep attempt now ⟨pdata, some tok⟩ s)).2)
              hs4stat
            refine ⟨?_, ?_, ?_, ?_, ?_⟩
            · intro p hp
              simp only [withPage, List.mem_cons] at hp
              rcases hp with hp | hp
              · subst hp
                refine ⟨hs4cons, hs4err, ?_, hs4id⟩
                intro hc
                exact absurd (hs4stat.symm.trans hc) (by decide)
              · obtain ⟨h1, h2, h3, h4⟩ := hrec.1 p hp
                exact ⟨fun h => h1 (hs4cons h), fun h => h2 (hs4err h),
                  h3, h4.trans hs4id⟩
            · simp only [withPage]
              exact List.chain'_cons.2 ⟨hs4le, hrec.2.1⟩
            · simp only [withPage]
              refine List.chain'_cons.2 ⟨?_, hrec.2.2.1⟩
              intro hc
              exact absurd (hs4stat.symm.trans hc) (by decide)
            · simp only [withPage]
              refine List.chain'_cons'.2 ⟨?_, hrec.2.2.2.1⟩
              intro b _ hb
              exact absurd (hs4cur.symm.trans hb.2) (by simp)
            · simp only [withPage]
              obtain ⟨last, hlast, hterm⟩ := hrec.2.2.2.2
              exact ⟨last, getLast?_cons_some _ hlast, hterm⟩

theorem strEndsWith_append_json (x : String) :
    strEndsWith (x ++ ".json") ".json" = true := by
  unfold strEndsWith
  rw [String.data_append, List.isSuffixOf_iff_suffix]
  exact List.suffix_append _ _

theorem lookupFile_valid_mem_collect (store : Store) (rid : String)
    (st : XImportState)
    (h : lookupFile store (stateFileName rid) = some (.valid st)) :
    st ∈ collectStates store := by
  induction store with
  | nil => simp [lookupFile] at h
  | cons e rest ih =>
    obtain ⟨k, v⟩ := e
    simp only [lookupFile] at h
    by_cases hk : k = stateFileName rid
    · rw [if_pos hk] at h
      obtain rfl : v = FileData.valid st := by
        cases v <;> simp_all
      subst hk
      simp only [collectStates, stateFileName, strEndsWith_append_json]
      simp
    · rw [if_neg hk] at h
      have hm := ih h
      simp only [collectStates]
      split
      · split
        · exact List.mem_cons_of_mem _ hm
        · exact hm
      · exact hm

theorem loadImportState_mem (store : Store) (rid : String) (st : XImportState)
    (h : loadImportState store rid = some st) : st ∈ collectStates store := by
  unfold loadImportState at h
  cases hl : lookupFile store (stateFileName rid) with
  | none => rw [hl] at h; simp at h
  | some d =>
    cases d with
    | corrupt => rw [hl] at h; simp at h
    | valid s =>
      rw [hl] at h
      simp only [Option.some.injEq] at h
      subst h
      exact lookupFile_valid_mem_collect store rid s hl

theorem getLast?_pair {α : Type} (a b : α) : ([a, b] : List α).getLast? = some b := rfl

/-- Every structural property of the persist trace, lifted from the fetch loop
to `startRun` (initial persist included). -/
theorem startRun_trace (env : ImportEnv) (mr : Option Nat) (store : Store)
    (state : XImportState) (hs : state.status = XImportStatus.running) :
    (∀ p ∈ (startRun env mr store state).persists,
      (countersConsistent state → countersConsistent p) ∧
      (failedMatchesErrors state → failedMatchesErrors p) ∧
      (p.status = XImportStatus.completed → p.nextPaginationToken = none) ∧
      p.importId = state.importId) ∧
    List.Chain' countersLE (startRun env mr store state).persists ∧
    List.Chain' cursorQ (startRun env mr store state).persists ∧
    List.Chain' cursorP (startRun env mr store state).persists.tail ∧
    ∃ last, (startRun env mr store state).persists.getLast? = some last ∧
      (last.status = XImportStatus.completed ∨ last.status = XImportStatus.failed) := by
  unfold startRun
  cases hcu : env.currentUser with
  | error e =>
    simp only [hcu]
    refine ⟨?_, ?_, ?_, ?_, ?_⟩
    · intro p hp
      simp only [failOut_persists, List.mem_cons, List.not_mem_nil, or_false] at hp
      rcases hp with hp | hp
      · subst hp
        refine ⟨fun h => h, fun h => h, ?_, rfl⟩
        intro hc
        exact absurd (hs.symm.trans hc) (by decide)
      · subst hp
        refine ⟨fun h => h, fun h => h, ?_, rfl⟩
        intro hc
        simp at hc
    · simp only [failOut_persists]
      refine List.chain'_cons.2 ⟨?_, List.chain'_singleton _⟩
      exact ⟨le_refl _, le_refl _, le_refl _, le_refl _⟩
    · simp only [failOut_persists]
      refine List.chain'_cons.2 ⟨?_, List.chain'_singleton _⟩
      intro _
      rfl
    · simp only [failOut_persists]
      exact List.chain'_singleton _
    · simp only [failOut_persists]
      exact ⟨_, getLast?_pair _ _, Or.inr rfl⟩
  | ok u =>
    simp only [hcu]
    have hl := importLoop_persistsOK env.attempt mr env.now env.responses
      ((saveImportState env.now store state).1) 0
      ((saveImportState env.now store state).2) hs
    refine ⟨?_, ?_, ?_, ?_, ?_⟩
    · intro p hp
      simp only [List.mem_cons] at hp
      rcases hp with hp | hp
      · subst hp
        refine ⟨fun h => h, fun h => h, ?_, rfl⟩
        intro hc
        exact absurd (hs.symm.trans hc) (by decide)
      · obtain ⟨h1, h2, h3, h4⟩ := hl.1 p hp
        exact ⟨fun h => h1 h, fun h => h2 h, h3, h4⟩
    · exact hl.2.1
    · exact hl.2.2.1
    · exact hl.2.2.2.1
    · obtain ⟨last, hlast, hterm⟩ := hl.2.2.2.2
      exact ⟨last, getLast?_cons_some _ hlast, hterm⟩

/-- The four ways one invocation can go: an early return with no writes, a
resume of a non-completed run, or a fresh run. -/
theorem tool_cases (env : ImportEnv) (store : Store) (args : ImportArgs) :
    (importXBookmarksTool env store args).persists = [] ∧
      (importXBookmarksTool env store args).storeTrace = [] ∨
    (∃ rid loaded, args.resumeImportId = some rid ∧
      loadImportState store rid = some loaded ∧
      ¬loaded.status = XImportStatus.completed ∧
      importXBookmarksTool env store args =
        startRun env args.maxResults store
          { loaded with status := XImportStatus.running }) ∨
    (args.resumeImportId = none ∧ getActiveImport store = none ∧
      importXBookmarksTool env store args =
        startRun env args.maxResults store
          { createImportState env.now env.collectionId env.collectionNameResolved with
            processedTweetIds := env.existingIds }) := by
  unfold importXBookmarksTool
  by_cases ha : env.xAuthenticated = false
  · rw [if_pos ha]
    exact Or.inl ⟨rfl, rfl⟩
  · rw [if_neg ha]
    cases hr : args.resumeImportId with
    | some rid =>
      dsimp only
      cases hload : loadImportState store rid with
      | none => exact Or.inl ⟨rfl, rfl⟩
      | some loaded =>
        dsimp only
        by_cases hc : loaded.status = XImportStatus.completed
        · rw [if_pos hc]
          exact Or.inl ⟨rfl, rfl⟩
        · rw [if_neg hc]
          exact Or.inr (Or.inl ⟨rid, loaded, rfl, hload, hc, rfl⟩)
    | none =>
      dsimp only
      cases hact : getActiveImport store with
      | some a => exact Or.inl ⟨rfl, rfl⟩
      | none => exact Or.inr (Or.inr ⟨rfl, rfl, rfl⟩)

theorem filter_setFile_ne (store : Store) (n : String) (d : FileData) :
    (setFile store n d).filter (fun e => !(e.1 == n)) =
      store.filter (fun e => !(e.1 == n)) := by
  induction store with
  | nil => simp [setFile]
  | cons e rest ih =>
    obtain ⟨k, v⟩ := e
    simp only [setFile]
    by_cases hk : k = n
    · subst hk
      rw [if_pos rfl]
      simp
    · rw [if_neg hk]
      simp only [List.filter_cons]
      rw [ih]

theorem countRunningExcl_setFile (store : Store) (n : String) (d : FileData) :
    countRunningExcl (setFile store n d) n = countRunningExcl store n := by
  unfold countRunningExcl
  rw [filter_setFile_ne]

theorem countRunningExcl_le (store : Store) (n : String) :
    countRunningExcl store n ≤ countRunning store := by
  unfold countRunningExcl countRunning
  exact (((List.filter_sublist store).filter isRunningEntry).length_le)

theorem countRunning_cons (e : String × FileData) (rest : Store) :
    countRunning (e :: rest) =
      (if isRunningEntry e then 1 else 0) + countRunning rest := by
  unfold countRunning
  rw [List.filter_cons]
  split
  · simp
    omega
  · simp


theorem countRunningExcl_cons (e : String × FileData) (rest : Store) (n : String) :
    countRunningExcl (e :: rest) n =
      (if e.1 ≠ n ∧ isRunningEntry e then 1 else 0) + countRunningExcl rest n := by
  unfold countRunningExcl
  rw [List.filter_cons]
  by_cases hk : e.1 = n
  · rw [if_neg (by simp [hk])]
    simp [hk]
  · rw [if_pos (by simp [hk])]
    rw [List.filter_cons]
    split
    · rename_i hre
      rw [if_pos ⟨hk, hre⟩]
      simp [Nat.add_comm]
    · rename_i hre
      rw [if_neg (fun hc => hre hc.2)]
      simp

theorem keys_setFile_subset (store : Store) (n : String) (d : FileData) (a : String)
    (ha : a ∈ (setFile store n d).map Prod.fst) :
    a ∈ store.map Prod.fst ∨ a = n := by
  induction store with
  | nil => simpa [setFile] using ha
  | cons e rest ih =>
    obtain ⟨k, v⟩ := e
    simp only [setFile] at ha
    by_cases hk : k = n
    · rw [if_pos hk] at ha
      simp only [List.map_cons, List.mem_cons] at ha ⊢
      rcases ha with ha | ha
      · exact Or.inr ha
      · exact Or.inl (Or.inr ha)
    · rw [if_neg hk] at ha
      simp only [List.map_cons, List.mem_cons] at ha ⊢
      rcases ha with ha | ha
      · exact Or.inl (Or.inl ha)
      · rcases ih ha with h | h
        · exact Or.inl (Or.inr h)
        · exact Or.inr h

theorem storeKeysNodup_setFile (store : Store) (n : String) (d : FileData)
    (h : storeKeysNodup store) : storeKeysNodup (setFile store n d) := by
  induction store with
  | nil => simp [setFile, storeKeysNodup]
  | cons e rest ih =>
    obtain ⟨k, v⟩ := e
    unfold storeKeysNodup at h
    simp only [List.map_cons, List.nodup_cons] at h
    obtain ⟨hk1, hk2⟩ := h
    simp only [setFile]
    by_cases hk : k = n
    · rw [if_pos hk]
      subst hk
      unfold storeKeysNodup
      simp only [List.map_cons, List.nodup_cons]
      exact ⟨hk1, hk2⟩
    · rw [if_neg hk]
      unfold storeKeysNodup
      simp only [List.map_cons, List.nodup_cons]
      refine ⟨?_, ih hk2⟩
      intro hmem
      rcases keys_setFile_subset rest n d k hmem with hbad | hbad
      · exact hk1 hbad
      · exact hk hbad

theorem notin_keys_countRunningExcl (store : Store) (n : String)
    (h : n ∉ store.map Prod.fst) :
    countRunningExcl store n = countRunning store := by
  induction store with
  | nil => rfl
  | cons e rest ih =>
    simp only [List.map_cons, List.mem_cons, not_or] at h
    rw [countRunningExcl_cons, countRunning_cons, ih h.2]
    have : e.1 ≠ n := fun hc => h.1 hc.symm
    by_cases hr : isRunningEntry e = true
    · rw [if_pos ⟨this, hr⟩, if_pos hr]
    · rw [if_neg (by tauto), if_neg hr]

theorem countRunning_setFile_le (store : Store) (n : String) (d : FileData)
    (hnd : storeKeysNodup store) :
    countRunning (setFile store n d) ≤ countRunningExcl store n + 1 := by
  induction store with
  | nil =>
    simp only [setFile, countRunning_cons]
    have h0 : countRunning ([] : Store) = 0 := rfl
    have h1 : countRunningExcl ([] : Store) n = 0 := rfl
    rw [h0, h1]
    split <;> omega
  | cons e rest ih =>
    obtain ⟨k, v⟩ := e
    unfold storeKeysNodup at hnd
    simp only [List.map_cons, List.nodup_cons] at hnd
    obtain ⟨hk1, hk2⟩ := hnd
    simp only [setFile]
    by_cases hk : k = n
    · rw [if_pos hk]
      subst hk
      rw [countRunningExcl_cons]
      rw [if_neg (show ¬((k, v).1 ≠ k ∧ isRunningEntry (k, v) = true) by simp)]
      rw [countRunning_cons]
      rw [notin_keys_countRunningExcl rest k hk1]
      split <;> omega
    · rw [if_neg hk]
      rw [countRunning_cons, countRunningExcl_cons]
      have := ih hk2
      by_cases hr : isRunningEntry (k, v) = true
      · rw [if_pos hr, if_pos ⟨by simpa using hk, hr⟩]
        omega
      · rw [if_neg hr, if_neg (by tauto)]
        omega

theorem getActiveImport_none_countRunning (store : Store)
    (h : getActiveImport store = none) : countRunning store = 0 := by
  induction store with
  | nil => rfl
  | cons e rest ih =>
    obtain ⟨k, v⟩ := e
    rw [countRunning_cons]
    simp only [getActiveImport] at h
    by_cases hj : strEndsWith k ".json" = true
    · rw [if_pos hj] at h
      cases v with
      | corrupt =>
        rw [ih h]
        simp [isRunningEntry]
      | valid st =>
        dsimp only at h
        by_cases hrun : st.status = XImportStatus.running
        · rw [if_pos hrun] at h
          simp at h
        · rw [if_neg hrun] at h
          rw [ih h]
          simp [isRunningEntry, hrun]
    · rw [if_neg hj] at h
      rw [ih h]
      cases v <;> simp [isRunningEntry, hj]

theorem saveImportState_snd (now : Nat) (store : Store) (s : XImportState) :
    (saveImportState now store s).2 =
      setFile store (stateFileName s.importId)
        (.valid { s with lastUpdateAt := now }) := rfl

theorem failOut_storeTrace (now : Nat) (s : XImportState) (err : String) (store : Store) :
    (failOut now s err store).storeTrace =
      [setFile store (stateFileName s.importId)
        (.valid { s with status := XImportStatus.failed, lastUpdateAt := now })] := rfl

theorem completeOut_storeTrace (now : Nat) (s : XImportState) (store : Store) :
    (completeOut now s store).storeTrace =
      [setFile store (stateFileName s.importId)
        (.valid { s with
          status := XImportStatus.completed
          nextPaginationToken := none
          lastUpdateAt := now })] := rfl

theorem countRunning_after_save (store : Store) (key : String) (d : FileData)
    (hnd : storeKeysNodup store) (hexcl : countRunningExcl store key = 0) :
    countRunning (setFile store key d) ≤ 1 ∧
    storeKeysNodup (setFile store key d) ∧
    countRunningExcl (setFile store key d) key = 0 :=
  ⟨by have := countRunning_setFile_le store key d hnd; omega,
   storeKeysNodup_setFile store key d hnd,
   by rw [countRunningExcl_setFile, hexcl]⟩

theorem importLoop_storeTrace (attempt : XTweet → Except String Unit)
    (mr : Option Nat) (now : Nat) :
    ∀ (responses : List (Except String XPage)) (s : XImportState) (tp : Nat)
      (store : Store), storeKeysNodup store →
      countRunningExcl store (stateFileName s.importId) = 0 →
      ∀ st ∈ (importLoop attempt mr now responses s tp store).storeTrace,
        countRunning st ≤ 1 := by
  intro responses
  induction responses with
  | nil =>
    intro s tp store hnd hexcl st hst
    simp only [importLoop, failOut_storeTrace, List.mem_singleton] at hst
    subst hst
    exact (countRunning_after_save store _ _ hnd hexcl).1
  | cons r rest ih =>
    intro s tp store hnd hexcl st hst
    cases r with
    | error e =>
      simp only [importLoop, failOut_storeTrace, List.mem_singleton] at hst
      subst hst
      exact (countRunning_after_save store _ _ hnd hexcl).1
    | ok page =>
      obtain ⟨pdata, ptok⟩ := page
      have hid : (pageStep attempt now ⟨pdata, ptok⟩ s).importId = s.importId :=
        (pageStep_fields attempt now ⟨pdata, ptok⟩ s).1
      simp only [importLoop] at hst
      by_cases hlen : pdata.length = 0
      · rw [if_pos hlen] at hst
        simp only [completeOut_storeTrace, List.mem_singleton] at hst
        subst hst
        exact (countRunning_after_save store _ _ hnd hexcl).1
      · rw [if_neg hlen] at hst
        simp only [saveImportState_snd, saveImportState_fst] at hst
        obtain ⟨hsave1, hsave2, hsave3⟩ :=
          countRunning_after_save store
            (stateFileName (pageStep attempt now ⟨pdata, ptok⟩ s).importId)
            (.valid { pageStep attempt now ⟨pdata, ptok⟩ s with lastUpdateAt := now })
            hnd (by rw [hid]; exact hexcl)
        by_cases hmax : hitMaxResults mr (tp + pdata.length) = true
        · rw [if_pos hmax] at hst
          simp only [withPage, completeOut_storeTrace, List.mem_cons,
            List.not_mem_nil, or_false] at hst
          rcases hst with hst | hst
          · subst hst
            exact hsave1
          · subst hst
            refine (countRunning_after_save _ _ _ hsave2 ?_).1
            dsimp only
            exact hsave3
        · rw [if_neg hmax] at hst
          cases ptok with
          | none =>
            simp only [withPage, completeOut_storeTrace, List.mem_cons,
              List.not_mem_nil, or_false] at hst
            rcases hst with hst | hst
            · subst hst
              exact hsave1
            · subst hst
              refine (countRunning_after_save _ _ _ hsave2 ?_).1
              dsimp only
              exact hsave3
          | some tok =>
            simp only [withPage, List.mem_cons] at hst
            rcases hst with hst | hst
            · subst hst
              exact hsave1
            · refine ih _ _ _ hsave2 ?_ st hst
              dsimp only
              exact hsave3

theorem startRun_storeTrace (env : ImportEnv) (mr : Option Nat) (store : Store)
    (state : XImportState) (hnd : storeKeysNodup store)
    (hexcl : countRunningExcl store (stateFileName state.importId) = 0) :
    ∀ st ∈ (startRun env mr store state).storeTrace, countRunning st ≤ 1 := by
  intro st hst
  unfold startRun at hst
  obtain ⟨hsave1, hsave2, hsave3⟩ :=
    countRunning_after_save store (stateFileName state.importId)
      (.valid { state with lastUpdateAt := env.now }) hnd hexcl
  cases hcu : env.currentUser with
  | error e =>
    rw [hcu] at hst
    simp only [saveImportState_snd, saveImportState_fst, failOut_storeTrace,
      List.mem_cons, List.not_mem_nil, or_false] at hst
    rcases hst with hst | hst
    · subst hst
      exact hsave1
    · subst hst
      refine (countRunning_after_save _ _ _ hsave2 ?_).1
      dsimp only
      exact hsave3
  | ok u =>
    rw [hcu] at hst
    simp only [saveImportState_snd, saveImportState_fst, List.mem_cons] at hst
    rcases hst with hst | hst
    · subst hst
      exact hsave1
    · refine importLoop_storeTrace env.attempt mr env.now env.responses _ 0 _ hsave2 ?_ st hst
      dsimp only
      exact hsave3

theorem validFiles_cons_valid (k : String) (st : XImportState) (rest : Store) :
    validFiles ((k, .valid st) :: rest) = (k, .valid st) :: validFiles rest := rfl

theorem validFiles_cons_corrupt (k : String) (rest : Store) :
    validFiles ((k, .corrupt) :: rest) = validFiles rest := rfl

theorem collectStates_validFiles (store : Store) :
    collectStates (validFiles store) = collectStates store := by
  induction store with
  | nil => rfl
  | cons e rest ih =>
    obtain ⟨k, v⟩ := e
    cases v with
    | valid st =>
      rw [validFiles_cons_valid]
      simp only [collectStates]
      split
      · rw [ih]
      · exact ih
    | corrupt =>
      rw [validFiles_cons_corrupt]
      simp only [collectStates]
      split
      · exact ih
      · exact ih

theorem getActiveImport_validFiles (store : Store) :
    getActiveImport (validFiles store) = getActiveImport store := by
  induction store with
  | nil => rfl
  | cons e rest ih =>
    obtain ⟨k, v⟩ := e
    cases v with
    | valid st =>
      rw [validFiles_cons_valid]
      simp only [getActiveImport]
      split
      · split
        · rfl
        · exact ih
      · exact ih
    | corrupt =>
      rw [validFiles_cons_corrupt]
      simp only [getActiveImport]
      split
      · exact ih
      · exact ih

theorem lookupFile_mem (store : Store) (n : String) (d : FileData)
    (h : lookupFile store n = some d) : (n, d) ∈ store := by
  induction store with
  | nil => simp [lookupFile] at h
  | cons e rest ih =>
    obtain ⟨k, v⟩ := e
    simp only [lookupFile] at h
    by_cases hk : k = n
    · rw [if_pos hk] at h
      simp only [Option.some.injEq] at h
      subst hk
      subst h
      exact List.mem_cons_self _ _
    · rw [if_neg hk] at h
      exact List.mem_cons_of_mem _ (ih h)

theorem loadImportState_some_lookup (store : Store) (rid : String)
    (st : XImportState) (h : loadImportState store rid = some st) :
    lookupFile store (stateFileName rid) = some (.valid st) := by
  unfold loadImportState at h
  cases hl : lookupFile store (stateFileName rid) with
  | none => rw [hl] at h; simp at h
  | some d =>
    cases d with
    | corrupt => rw [hl] at h; simp at h
    | valid s =>
      rw [hl] at h
      simp only [Option.some.injEq] at h
      subst h
      rfl


/-!
## Claim theorems
-/

/-- **C1**: at every state persisted by the orchestrator (after creation, after
each page, and at termination), `totalSaved + totalSkipped + totalFailed ≤
totalFetched`, and the four counters only grow from each persisted state to the
next.  The hypothesis conditions the resumed ledger: every state already in the
store (in particular the one a resume loads) satisfies the counting invariant,
which holds of every state this subsystem writes. -/
theorem c1_persisted_counters_invariant (env : ImportEnv) (store : Store)
    (args : ImportArgs)
    (hstore : ∀ s ∈ collectStates store, countersConsistent s) :
    (∀ p ∈ (importXBookmarksTool env store args).persists, countersConsistent p) ∧
    List.Chain' countersLE (importXBookmarksTool env store args).persists := by
  rcases tool_cases env store args with ⟨hp, _⟩ | ⟨rid, loaded, hr, hload, hnc, heq⟩ |
    ⟨hr, hact, heq⟩
  · rw [hp]
    exact ⟨fun p hp => absurd hp (List.not_mem_nil p), List.chain'_nil⟩
  · rw [heq]
    have hst := startRun_trace env args.maxResults store
      { loaded with status := XImportStatus.running } rfl
    have hbase : countersConsistent { loaded with status := XImportStatus.running } :=
      hstore loaded (loadImportState_mem store rid loaded hload)
    exact ⟨fun p hp => ((hst.1 p hp).1) hbase, hst.2.1⟩
  · rw [heq]
    have hst := startRun_trace env args.maxResults store
      { createImportState env.now env.collectionId env.collectionNameResolved with
        processedTweetIds := env.existingIds } rfl
    exact ⟨fun p hp => ((hst.1 p hp).1) (Nat.le_refl 0), hst.2.1⟩

/-- Witness for C1: a concrete one-page run from an empty store; the page
persist satisfies the counting invariant. -/
theorem c1_witness :
    countersConsistent ((importXBookmarksTool c1Env [] c1Args).persists.getD 1 dummyState) :=
  (c1_persisted_counters_invariant c1Env [] c1Args (by decide)).1 _ (by decide)

/-- **C10**: `totalFailed` equals the length of the error log at every
persisted state: both start at zero at creation, `addImportError` is the only
operation changing either and it appends one entry while incrementing
`totalFailed` by one.  The hypothesis conditions resumed ledgers the same way
as C1. -/
theorem c10_failed_matches_errors (env : ImportEnv) (store : Store)
    (args : ImportArgs)
    (hstore : ∀ s ∈ collectStates store, failedMatchesErrors s) :
    (∀ p ∈ (importXBookmarksTool env store args).persists, failedMatchesErrors p) ∧
    (∀ now cid cname, (createImportState now cid cname).totalFailed = 0 ∧
      (createImportState now cid cname).errors = []) ∧
    (∀ now s tid msg, (addImportError now s tid msg).totalFailed = s.totalFailed + 1 ∧
      (addImportError now s tid msg).errors.length = s.errors.length + 1) := by
  refine ⟨?_, fun now cid cname => ⟨rfl, rfl⟩,
    fun now s tid msg => ⟨rfl, by simp [addImportError]⟩⟩
  rcases tool_cases env store args with ⟨hp, _⟩ | ⟨rid, loaded, hr, hload, hnc, heq⟩ |
    ⟨hr, hact, heq⟩
  · rw [hp]
    exact fun p hp => absurd hp (List.not_mem_nil p)
  · rw [heq]
    have hst := startRun_trace env args.maxResults store
      { loaded with status := XImportStatus.running } rfl
    have hbase : failedMatchesErrors { loaded with status := XImportStatus.running } :=
      hstore loaded (loadImportState_mem store rid loaded hload)
    exact fun p hp => ((hst.1 p hp).2.1) hbase
  · rw [heq]
    have hst := startRun_trace env args.maxResults store
      { createImportState env.now env.collectionId env.collectionNameResolved with
        processedTweetIds := env.existingIds } rfl
    exact fun p hp => ((hst.1 p hp).2.1) rfl

/-- Witness for C10: a two-record run where one write fails; the terminal
persist has `totalFailed` equal to the error-log length. -/
theorem c10_witness :
    failedMatchesErrors ((importXBookmarksTool c10Env [] c10Args).persists.getD 2 dummyState) :=
  (c10_failed_matches_errors c10Env [] c10Args (by decide)).1 _ (by decide)

/-- **C5 (amended)**: every persisted `completed` state has an empty cursor;
a persist that turns the run `failed` leaves the previous persist's cursor
untouched (so the run is resumable from it); the in-loop persist of the final
page already stores the source's absent cursor while the status is still
`running`, and such a persist is immediately followed by the `completed`
persist; and a started run's trace always ends in a terminal persist. -/
theorem c5_cursor_cleared_amended (env : ImportEnv) (store : Store)
    (args : ImportArgs) :
    (∀ p ∈ (importXBookmarksTool env store args).persists,
      p.status = XImportStatus.completed → p.nextPaginationToken = none) ∧
    List.Chain' cursorQ (importXBookmarksTool env store args).persists ∧
    List.Chain' cursorP (importXBookmarksTool env store args).persists.tail ∧
    ((importXBookmarksTool env store args).persists ≠ [] →
      ∃ last, (importXBookmarksTool env store args).persists.getLast? = some last ∧
        (last.status = XImportStatus.completed ∨ last.status = XImportStatus.failed)) := by
  rcases tool_cases env store args with ⟨hp, _⟩ | ⟨rid, loaded, hr, hload, hnc, heq⟩ |
    ⟨hr, hact, heq⟩
  · rw [hp]
    exact ⟨fun p hp => absurd hp (List.not_mem_nil p), List.chain'_nil,
      List.chain'_nil, fun hne => absurd rfl hne⟩
  · rw [heq]
    have hst := startRun_trace env args.maxResults store
      { loaded with status := XImportStatus.running } rfl
    exact ⟨fun p hp => (hst.1 p hp).2.2.1, hst.2.2.1, hst.2.2.2.1,
      fun _ => hst.2.2.2.2⟩
  · rw [heq]
    have hst := startRun_trace env args.maxResults store
      { createImportState env.now env.collectionId env.collectionNameResolved with
        processedTweetIds := env.existingIds } rfl
    exact ⟨fun p hp => (hst.1 p hp).2.2.1, hst.2.2.1, hst.2.2.2.1,
      fun _ => hst.2.2.2.2⟩

/-- Counterexample for C5 as frozen: resuming a failed run whose stored cursor
is `some "T"`, against a source whose next page carries records but no further
cursor, persists a state whose cursor has been cleared while its status is
still `running` — the clear happens one persist before the transition to
`completed`, so it is not the case that the cursor is cleared exactly at that
transition. -/
theorem c5_counterexample :
    ((importXBookmarksTool c5Env c5Store c5Args).persists.getD 0 dummyState).nextPaginationToken
        = some "T" ∧
    ((importXBookmarksTool c5Env c5Store c5Args).persists.getD 0 dummyState).status
        = XImportStatus.running ∧
    ((importXBookmarksTool c5Env c5Store c5Args).persists.getD 1 dummyState).status
        = XImportStatus.running ∧
    ((importXBookmarksTool c5Env c5Store c5Args).persists.getD 1 dummyState).nextPaginationToken
        = none := by decide

/-- Witness for C5 (amended): in the same resumed run, the `completed` persist
has an empty cursor. -/
theorem c5_witness :
    ((importXBookmarksTool c5Env c5Store c5Args).persists.getD 2 dummyState).nextPaginationToken
      = none :=
  (c5_cursor_cleared_amended c5Env c5Store c5Args).1 _ (by decide) (by decide)

/-- **C6**: a resume-by-ID invocation with an unknown id fails with a
not-found response and neither creates nor mutates any state and fetches no
page; a resume of a `completed` run short-circuits with an
"already completed" response carrying the run's summary, again with no writes
and no fetches. -/
theorem c6_resume_guards (env : ImportEnv) (store : Store) (args : ImportArgs)
    (rid : String) (hauth : env.xAuthenticated = true)
    (hr : args.resumeImportId = some rid) :
    (loadImportState store rid = none →
      importXBookmarksTool env store args =
        { result := .importNotFound rid, finalStore := store,
          persists := [], storeTrace := [], pagesFetched := 0 }) ∧
    (∀ loaded, loadImportState store rid = some loaded →
      loaded.status = XImportStatus.completed →
      importXBookmarksTool env store args =
        { result := .alreadyCompleted (getImportSummary loaded), finalStore := store,
          persists := [], storeTrace := [], pagesFetched := 0 }) := by
  unfold importXBookmarksTool
  rw [if_neg (by rw [hauth]; simp)]
  rw [hr]
  dsimp only
  constructor
  · intro h
    rw [h]
  · intro loaded h hc
    rw [h]
    dsimp only
    rw [if_pos hc]

/-- Witness for C6: resuming the concrete completed run `done` returns the
"already completed" response and leaves the store untouched. -/
theorem c6_witness :
    importXBookmarksTool c6Env c6Store c6Args =
      { result := .alreadyCompleted (getImportSummary c6State), finalStore := c6Store,
        persists := [], storeTrace := [], pagesFetched := 0 } :=
  (c6_resume_guards c6Env c6Store c6Args "done" rfl rfl).2 c6State (by decide) (by decide)

/-- **C8**: a run file that is missing or fails to parse is treated as absent
by `loadImportState`, and the `listImportStates` / `getActiveImport` scans
skip corrupt files, returning exactly the results computed from the remaining
valid files. -/
theorem c8_corrupt_treated_absent (store : Store) (id : String) :
    (lookupFile store (stateFileName id) = some FileData.corrupt →
      loadImportState store id = none) ∧
    (lookupFile store (stateFileName id) = none →
      loadImportState store id = none) ∧
    listImportStates store = listImportStates (validFiles store) ∧
    getActiveImport store = getActiveImport (validFiles store) := by
  refine ⟨?_, ?_, ?_, ?_⟩
  · intro h
    unfold loadImportState
    rw [h]
  · intro h
    unfold loadImportState
    rw [h]
  · unfold listImportStates
    rw [collectStates_validFiles]
  · rw [getActiveImport_validFiles]

/-- Witness for C8: in a store holding one corrupt and one valid file, loading
the corrupt run yields `none` and the listing equals the listing of the valid
files alone. -/
theorem c8_witness :
    loadImportState c8Store "gone" = none ∧
    listImportStates c8Store = listImportStates (validFiles c8Store) :=
  ⟨(c8_corrupt_treated_absent c8Store "gone").1 (by decide),
   (c8_corrupt_treated_absent c8Store "gone").2.2.1⟩

/-- **C9**: `recordRequest` updates `lastRequestTime` to the current time,
decrements the local budget estimate by exactly one when it is positive,
leaves it at zero when it is already zero, never makes it negative, and (being
a total function) never raises. -/
theorem c9_record_request (rl : RateLimiter) (now : Nat) :
    (rl.recordRequest now).lastRequestTime = now ∧
    (0 < rl.remaining → (rl.recordRequest now).remaining = rl.remaining - 1) ∧
    (rl.remaining = 0 → (rl.recordRequest now).remaining = 0) ∧
    (0 ≤ rl.remaining → 0 ≤ (rl.recordRequest now).remaining) := by
  unfold RateLimiter.recordRequest
  dsimp only
  split
  · rename_i h
    refine ⟨rfl, fun _ => rfl, fun h0 => ?_, fun _ => ?_⟩
    · exact absurd h0 (by omega)
    · dsimp only
      omega
  · rename_i h
    exact ⟨rfl, fun hp => absurd hp h, fun h0 => h0, fun hge => hge⟩

/-- Witness for C9: the freshly constructed limiter has budget 180; recording
a request at time 777 sets `lastRequestTime` and decrements the budget. -/
theorem c9_witness :
    (RateLimiter.init.recordRequest 777).lastRequestTime = 777 ∧
    (RateLimiter.init.recordRequest 777).remaining = RateLimiter.init.remaining - 1 :=
  ⟨(c9_record_request RateLimiter.init 777).1,
   (c9_record_request RateLimiter.init 777).2.1 (by decide)⟩

/-- **C2 (amended)**: starting a new import (no resume id) while a run with
status `running` exists in the store creates no new run and writes no state —
it returns the existing run's id and summary.  The resume path, however,
checks only the resumed run; what holds is: in a directory whose only
`running` entry, if any, is the resumed run's own file (true whenever every
invocation so far ran to termination), no step of any invocation ever leaves
two `running` ledger entries.  The first two hypotheses of the second part say
the store is a real directory (unique file names) whose parseable files hold
the run named by the file — true of every file this subsystem writes. -/
theorem c2_at_most_one_running_amended (env : ImportEnv) (store : Store)
    (args : ImportArgs) :
    (∀ a, env.xAuthenticated = true → args.resumeImportId = none →
      getActiveImport store = some a →
      importXBookmarksTool env store args =
        { result := .importInProgress a.importId (getImportSummary a),
          finalStore := store, persists := [], storeTrace := [], pagesFetched := 0 }) ∧
    (storeKeysNodup store → storeNamesConsistent store →
      (∀ rid, args.resumeImportId = some rid →
        countRunningExcl store (stateFileName rid) = 0) →
      ∀ st ∈ (importXBookmarksTool env store args).storeTrace, countRunning st ≤ 1) := by
  constructor
  · intro a hauth hr hact
    unfold importXBookmarksTool
    rw [if_neg (by rw [hauth]; simp)]
    rw [hr]
    dsimp only
    rw [hact]
  · intro hnd hnames hexcl st hst
    rcases tool_cases env store args with ⟨_, ht⟩ | ⟨rid, loaded, hr, hload, hnc, heq⟩ |
      ⟨hr, hact, heq⟩
    · rw [ht] at hst
      exact absurd hst (List.not_mem_nil st)
    · rw [heq] at hst
      have hlk := loadImportState_some_lookup store rid loaded hload
      have hmem := lookupFile_mem store (stateFileName rid) _ hlk
      have hname := hnames _ hmem
      have hkey : stateFileName rid = stateFileName loaded.importId := by
        simpa [entryNameConsistent] using hname
      refine startRun_storeTrace env args.maxResults store
        { loaded with status := XImportStatus.running } hnd ?_ st hst
      have h0 := hexcl rid hr
      dsimp only
      rw [← hkey]
      exact h0
    · rw [heq] at hst
      have h0 : countRunning store = 0 := getActiveImport_none_countRunning store hact
      refine startRun_storeTrace env args.maxResults store
        { createImportState env.now env.collectionId env.collectionNameResolved with
          processedTweetIds := env.existingIds } hnd ?_ st hst
      have hle := countRunningExcl_le store
        (stateFileName ({ createImportState env.now env.collectionId
          env.collectionNameResolved with
          processedTweetIds := env.existingIds }).importId)
      omega

/-- Counterexample for C2 as frozen: in a store holding a `running` entry `A`
(for example left behind by a crash mid-run) and a `failed` entry `B`,
resuming `B` by id persists `B` as `running` without checking for other
running runs, so the store momentarily holds two `running` ledger entries. -/
theorem c2_counterexample :
    countRunning c2Store = 1 ∧
    countRunning ((importXBookmarksTool c2Env c2Store c2Args).storeTrace.getD 0 []) = 2 := by
  decide

/-- Witness for C2 (amended): resuming the failed run in a store with no other
running entry keeps the running count at one after the first persist. -/
theorem c2_witness :
    countRunning ((importXBookmarksTool c2Env c2WStore c2Args).storeTrace.getD 0 []) ≤ 1 :=
  (c2_at_most_one_running_amended c2Env c2WStore c2Args).2 (by decide) (by decide)
    (by
      intro rid hr
      have h : some "B" = some rid := hr
      obtain rfl : "B" = rid := Option.some.inj h
      decide)
    _ (by decide)

/-- **C3**: a record whose transform-and-write raises is recovered locally:
the orchestrator appends `{externalId, message, timestamp}` to the run's error
log, increments `totalFailed` by one, and continues with the next record of
the same page; concretely, on a page of five records where the write fails on
exactly record "3", the run reports `totalFailed = 1` and `totalSaved = 4` for
that page, keeps fetching the next page, and never transitions to `failed`. -/
theorem c3_per_record_failure_recovery :
    (∀ (attempt : XTweet → Except String Unit) (now : Nat) (t : XTweet)
        (rest : List XTweet) (s : XImportState) (m : String),
      isTweetProcessed s t.id = false → attempt t = .error m →
      processTweetBatch attempt now (t :: rest) s =
        { processTweetBatch attempt now rest (addImportError now s t.id m) with
          failed := (processTweetBatch attempt now rest (addImportError now s t.id m)).failed + 1 } ∧
      (addImportError now s t.id m).errors =
        s.errors ++ [{ tweetId := t.id, error := m, timestamp := now }] ∧
      (addImportError now s t.id m).totalFailed = s.totalFailed + 1) ∧
    ((importXBookmarksTool c3Env [] c3Args).persists.getD 1 dummyState).totalFailed = 1 ∧
    ((importXBookmarksTool c3Env [] c3Args).persists.getD 1 dummyState).totalSaved = 4 ∧
    ((importXBookmarksTool c3Env [] c3Args).persists.getD 1 dummyState).errors =
      [{ tweetId := "3", error := "write failed", timestamp := 77 }] ∧
    (importXBookmarksTool c3Env [] c3Args).pagesFetched = 2 ∧
    (∀ p ∈ (importXBookmarksTool c3Env [] c3Args).persists,
      p.status ≠ XImportStatus.failed) ∧
    ((importXBookmarksTool c3Env [] c3Args).persists.getD 3 dummyState).status =
      XImportStatus.completed := by
  constructor
  · intro attempt now t rest s m h1 h2
    refine ⟨?_, by simp [addImportError], rfl⟩
    simp only [processTweetBatch, h1, h2]
    simp
  · refine ⟨by decide, by decide, by decide, by decide, by decide, by decide⟩

/-- Witness for C3: the per-record recovery equation at a concrete failing
tweet and state. -/
theorem c3_witness :
    processTweetBatch c3WAttempt 77 [c3WTweet] dummyState =
      { processTweetBatch c3WAttempt 77 []
          (addImportError 77 dummyState c3WTweet.id "write failed") with
        failed := (processTweetBatch c3WAttempt 77 []
          (addImportError 77 dummyState c3WTweet.id "write failed")).failed + 1 } ∧
    (addImportError 77 dummyState c3WTweet.id "write failed").totalFailed =
      dummyState.totalFailed + 1 := by
  have h := c3_per_record_failure_recovery.1 c3WAttempt 77 c3WTweet [] dummyState
    "write failed" (by decide) (by decide)
  exact ⟨h.1, h.2.2⟩

theorem xApiRequestGo_attempts_le (respOf : Nat → XHttpResponse) (now maxRetries : Nat) :
    ∀ (fuel attemptIdx : Nat) (rl : RateLimiter) (sleeps : List Int),
      (xApiRequestGo respOf now maxRetries fuel attemptIdx rl sleeps).attemptsMade ≤
        attemptIdx + fuel := by
  intro fuel
  induction fuel with
  | zero =>
    intro attemptIdx rl sleeps
    simp [xApiRequestGo]
  | succ n ih =>
    intro attemptIdx rl sleeps
    simp only [xApiRequestGo]
    split
    · exact le_trans (ih _ _ _) (by omega)
    · split
      · dsimp only
        omega
      · dsimp only
        omega

/-- **C4**: `xApiRequest` never dispatches more than the fixed ceiling of 3
attempts; when every attempt returns HTTP 429 it sleeps before each retry
until the header reset time plus the 5-second buffer and finally raises the
response's error message (never success, never an unbounded loop); and on any
other non-success status it fails on the first attempt without retrying,
surfacing the body's `detail` when the body provides one. -/
theorem c4_retry_policy (respOf : Nat → XHttpResponse) (now : Nat) (rl : RateLimiter) :
    (xApiRequest respOf now 3 rl).attemptsMade ≤ 3 ∧
    ((∀ i, i < 3 → (respOf i).status = 429) →
      (xApiRequest respOf now 3 rl).result = .error (errorMessageOf (respOf 2)) ∧
      (xApiRequest respOf now 3 rl).attemptsMade = 3 ∧
      (xApiRequest respOf now 3 rl).sleeps =
        [retryWaitMs (respOf 0) now, retryWaitMs (respOf 1) now]) ∧
    (¬(respOf 0).status = 429 → responseOk (respOf 0) = false →
      (xApiRequest respOf now 3 rl).result = .error (errorMessageOf (respOf 0)) ∧
      (xApiRequest respOf now 3 rl).attemptsMade = 1 ∧
      (xApiRequest respOf now 3 rl).sleeps = []) ∧
    (∀ d, (respOf 0).bodyParses = true → (respOf 0).bodyDetail = some d →
      ¬(respOf 0).status = 429 → responseOk (respOf 0) = false →
      (xApiRequest respOf now 3 rl).result = .error d) := by
  have hsteps :
    (∀ (rlx : RateLimiter) (sl : List Int), (respOf 0).status = 429 →
      ∃ rly, xApiRequestGo respOf now 3 3 0 rlx sl =
        xApiRequestGo respOf now 3 2 1 rly (sl ++ [retryWaitMs (respOf 0) now])) ∧
    (∀ (rlx : RateLimiter) (sl : List Int), (respOf 1).status = 429 →
      ∃ rly, xApiRequestGo respOf now 3 2 1 rlx sl =
        xApiRequestGo respOf now 3 1 2 rly (sl ++ [retryWaitMs (respOf 1) now])) ∧
    (∀ (rlx : RateLimiter) (sl : List Int), (respOf 2).status = 429 →
      ∃ rly, xApiRequestGo respOf now 3 1 2 rlx sl =
        { result := .error (errorMessageOf (respOf 2)), attemptsMade := 3,
          sleeps := sl, limiter := rly }) := by
    refine ⟨?_, ?_, ?_⟩
    · intro rlx sl hs
      show ∃ rly, xApiRequestGo respOf now 3 (2 + 1) 0 rlx sl = _
      simp only [xApiRequestGo]
      rw [if_pos ⟨hs, by omega⟩]
      exact ⟨_, rfl⟩
    · intro rlx sl hs
      show ∃ rly, xApiRequestGo respOf now 3 (1 + 1) 1 rlx sl = _
      simp only [xApiRequestGo]
      rw [if_pos ⟨hs, by omega⟩]
      exact ⟨_, rfl⟩
    · intro rlx sl hs
      show ∃ rly, xApiRequestGo respOf now 3 (0 + 1) 2 rlx sl = _
      simp only [xApiRequestGo]
      rw [if_neg (fun hc => by omega)]
      rw [if_neg (show ¬(responseOk (respOf 2) = true) from by
        simp [responseOk, hs])]
      exact ⟨_, rfl⟩
  refine ⟨le_trans (xApiRequestGo_attempts_le respOf now 3 3 0 rl []) (by omega),
    ?_, ?_, ?_⟩
  · intro h429
    obtain ⟨rl1, e1⟩ := hsteps.1 rl [] (h429 0 (by omega))
    obtain ⟨rl2, e2⟩ := hsteps.2.1 rl1 _ (h429 1 (by omega))
    obtain ⟨rl3, e3⟩ := hsteps.2.2 rl2 _ (h429 2 (by omega))
    have hfinal : xApiRequest respOf now 3 rl =
        { result := .error (errorMessageOf (respOf 2)), attemptsMade := 3,
          sleeps := [retryWaitMs (respOf 0) now, retryWaitMs (respOf 1) now],
          limiter := rl3 } := by
      unfold xApiRequest
      rw [e1, e2, e3]
      simp
    rw [hfinal]
    exact ⟨rfl, rfl, rfl⟩
  · intro hs hok
    have hfinal : ∃ rly, xApiRequest respOf now 3 rl =
        { result := .error (errorMessageOf (respOf 0)), attemptsMade := 1,
          sleeps := [], limiter := rly } := by
      unfold xApiRequest
      show ∃ rly, xApiRequestGo respOf now 3 (2 + 1) 0 rl [] = _
      simp only [xApiRequestGo]
      rw [if_neg (fun hc => hs hc.1)]
      rw [if_neg (show ¬(responseOk (respOf 0) = true) from by rw [hok]; simp)]
      exact ⟨_, rfl⟩
    obtain ⟨rly, hfinal⟩ := hfinal
    rw [hfinal]
    exact ⟨rfl, rfl, rfl⟩
  · intro d hbp hdet hs hok
    have hmsg : errorMessageOf (respOf 0) = d := by
      unfold errorMessageOf
      rw [if_pos hbp, hdet]
    have hfinal : ∃ rly, xApiRequest respOf now 3 rl =
        { result := .error (errorMessageOf (respOf 0)), attemptsMade := 1,
          sleeps := [], limiter := rly } := by
      unfold xApiRequest
      show ∃ rly, xApiRequestGo respOf now 3 (2 + 1) 0 rl [] = _
      simp only [xApiRequestGo]
      rw [if_neg (fun hc => hs hc.1)]
      rw [if_neg (show ¬(responseOk (respOf 0) = true) from by rw [hok]; simp)]
      exact ⟨_, rfl⟩
    obtain ⟨rly, hfinal⟩ := hfinal
    rw [hfinal, hmsg]

/-- Witness for C4: a source that answers 429 with a reset header on every
attempt makes the call sleep twice and raise the body's error, after exactly
three attempts. -/
theorem c4_witness :
    (xApiRequest c4Resp 5000 3 RateLimiter.init).result =
      .error (errorMessageOf (c4Resp 2)) ∧
    (xApiRequest c4Resp 5000 3 RateLimiter.init).attemptsMade = 3 ∧
    (xApiRequest c4Resp 5000 3 RateLimiter.init).sleeps =
      [retryWaitMs (c4Resp 0) 5000, retryWaitMs (c4Resp 1) 5000] :=
  (c4_retry_policy c4Resp 5000 RateLimiter.init).2.1 (by decide)

theorem scanGo_fetch_le (getPage : Nat → Except String (List String))
    (extract : String → Option String) :
    ∀ (n page : Nat) (acc : List String) (f : Nat), 101 - page = n → page ≤ 100 →
      (loadExistingTweetIdsGo getPage extract page acc f).pagesFetched ≤
        f + (101 - page) := by
  intro n
  induction n using Nat.strong_induction_on with
  | _ n ih =>
    intro page acc f hn hpage
    unfold loadExistingTweetIdsGo
    cases hg : getPage page with
    | error e =>
      dsimp only
      omega
    | ok items =>
      dsimp only
      by_cases hlen : items.length < 50
      · rw [if_pos hlen]
        dsimp only
        omega
      · rw [if_neg hlen]
        by_cases hcap : 100 < page + 1
        · rw [if_pos hcap]
          dsimp only
          omega
        · rw [if_neg hcap]
          have := ih (101 - (page + 1)) (by omega) (page + 1)
            (acc ++ items.filterMap extract) (f + 1) rfl (by omega)
          omega

theorem scanGo_all_full (getPage : Nat → Except String (List String))
    (extract : String → Option String) :
    ∀ (n page : Nat) (acc : List String) (f : Nat), 101 - page = n → page ≤ 100 →
      (∀ j, page ≤ j → j ≤ 100 → ∃ items, getPage j = .ok items ∧ 50 ≤ items.length) →
      (loadExistingTweetIdsGo getPage extract page acc f).warned = true ∧
      (loadExistingTweetIdsGo getPage extract page acc f).errored = false ∧
      (loadExistingTweetIdsGo getPage extract page acc f).pagesFetched =
        f + (101 - page) := by
  intro n
  induction n using Nat.strong_induction_on with
  | _ n ih =>
    intro page acc f hn hpage hfull
    obtain ⟨items, hgp, hlen⟩ := hfull page le_rfl hpage
    unfold loadExistingTweetIdsGo
    rw [hgp]
    dsimp only
    rw [if_neg (by omega)]
    by_cases hcap : 100 < page + 1
    · rw [if_pos hcap]
      dsimp only
      refine ⟨rfl, rfl, by omega⟩
    · rw [if_neg hcap]
      have := ih (101 - (page + 1)) (by omega) (page + 1)
        (acc ++ items.filterMap extract) (f + 1) rfl (by omega)
        (fun j hj1 hj2 => hfull j (by omega) hj2)
      refine ⟨this.1, this.2.1, by omega⟩

theorem scanGo_short (getPage : Nat → Except String (List String))
    (extract : String → Option String) :
    ∀ (n page : Nat) (acc : List String) (f : Nat), 101 - page = n → page ≤ 100 →
      ∀ k itemsK, page ≤ k → k ≤ 100 → getPage k = .ok itemsK →
      itemsK.length < 50 →
      (∀ j, page ≤ j → j < k → ∃ items, getPage j = .ok items ∧ 50 ≤ items.length) →
      (loadExistingTweetIdsGo getPage extract page acc f).pagesFetched =
        f + (k - page) + 1 ∧
      (loadExistingTweetIdsGo getPage extract page acc f).warned = false ∧
      (loadExistingTweetIdsGo getPage extract page acc f).errored = false := by
  intro n
  induction n using Nat.strong_induction_on with
  | _ n ih =>
    intro page acc f hn hpage k itemsK hpk hk100 hgk hlenK hfull
    by_cases hpke : page = k
    · subst hpke
      unfold loadExistingTweetIdsGo
      rw [hgk]
      dsimp only
      rw [if_pos hlenK]
      dsimp only
      refine ⟨by omega, rfl, rfl⟩
    · have hlt : page < k := lt_of_le_of_ne hpk hpke
      obtain ⟨items, hgp, hlen⟩ := hfull page le_rfl hlt
      unfold loadExistingTweetIdsGo
      rw [hgp]
      dsimp only
      rw [if_neg (by omega)]
      rw [if_neg (show ¬(100 < page + 1) by omega)]
      have := ih (101 - (page + 1)) (by omega) (page + 1)
        (acc ++ items.filterMap extract) (f + 1) rfl (by omega) k itemsK
        (by omega) hk100 hgk hlenK (fun j hj1 hj2 => hfull j (by omega) hj2)
      refine ⟨by omega, this.2.1, this.2.2⟩

/-- **C7**: the duplicate-index scan always terminates: it never fetches more
than 101 pages; if every page up to the cap is full (50 or more items and no
exception) it stops at the cap with the warning flag set and no error; and a
short page at index `k` (all earlier pages full) stops the scan right there,
after exactly `k + 1` fetches, without the warning. -/
theorem c7_duplicate_scan_bounded (getPage : Nat → Except String (List String))
    (extract : String → Option String) :
    (loadExistingTweetIds getPage extract).pagesFetched ≤ 101 ∧
    ((∀ j, j ≤ 100 → ∃ items, getPage j = .ok items ∧ 50 ≤ items.length) →
      (loadExistingTweetIds getPage extract).warned = true ∧
      (loadExistingTweetIds getPage extract).errored = false ∧
      (loadExistingTweetIds getPage extract).pagesFetched = 101) ∧
    (∀ k itemsK, k ≤ 100 → getPage k = .ok itemsK → itemsK.length < 50 →
      (∀ j, j < k → ∃ items, getPage j = .ok items ∧ 50 ≤ items.length) →
      (loadExistingTweetIds getPage extract).pagesFetched = k + 1 ∧
      (loadExistingTweetIds getPage extract).warned = false) := by
  unfold loadExistingTweetIds
  refine ⟨?_, ?_, ?_⟩
  · have := scanGo_fetch_le getPage extract 101 0 [] 0 rfl (by omega)
    omega
  · intro hfull
    have := scanGo_all_full getPage extract 101 0 [] 0 rfl (by omega)
      (fun j _ hj => hfull j hj)
    exact ⟨this.1, this.2.1, by omega⟩
  · intro k itemsK hk hgk hlenK hfull
    have := scanGo_short getPage extract 101 0 [] 0 rfl (by omega) k itemsK
      (by omega) hk hgk hlenK (fun j _ hj => hfull j hj)
    exact ⟨by omega, this.2.1⟩

/-- Witness for C7: a full first page followed by a one-item page stops the
scan after exactly two fetches with no warning. -/
theorem c7_witness :
    (loadExistingTweetIds c7Pages c7Extract).pagesFetched = 2 ∧
    (loadExistingTweetIds c7Pages c7Extract).warned = false :=
  (c7_duplicate_scan_bounded c7Pages c7Extract).2.2 1 ["https://x.com/u/status/2"]
    (by decide) (by decide) (by decide)
    (by
      intro j hj
      have hj0 : j = 0 := by omega
      subst hj0
      exact ⟨List.replicate 50 "https://x.com/u/status/1", rfl, by decide⟩)

end RaindropImport
